import Mathlib

/-!
Shallow embedding of the static position evaluator in src/evaluate.cpp
(multi-variant Stockfish).  Bitboards are 64-bit masks modelled as natural
numbers below 2^64; machine integers are modelled as Lean integers with
C-style truncated division written Int.tdiv.  External collaborators
(Position, the material and pawn hash tables, the global contempt score)
are modelled as record fields; the bitboard primitives of bitboard.h
(shifts, popcount, king/knight/slider attacks, LineBB, DistanceRingBB)
are implemented concretely.
-/

/-- Bitboard: a 64-bit mask, one bit per square (a1 = bit 0 .. h8 = bit 63). -/
abbrev Bitboard := Nat

/-- Full 64-bit mask, the value of AllSquares / of a C++ bitwise-not base. -/
def FullBB : Bitboard := 0xFFFFFFFFFFFFFFFF

/-- Bitwise complement on 64-bit words (the C++ operator on Bitboard). -/
def bcompl (b : Bitboard) : Bitboard := FullBB ^^^ b

/-- Left shift on 64-bit words: shifted-out high bits are discarded. -/
def shl64 (b : Bitboard) (k : Nat) : Bitboard := (b <<< k) % (2 ^ 64)

/-- File index (0 = file A .. 7 = file H) of a square, as in file_of. -/
def fileOf (s : Nat) : Nat := s % 8

/-- Rank index (0 = rank 1 .. 7 = rank 8) of a square, as in rank_of. -/
def rankOf (s : Nat) : Nat := s / 8

/-- Bitboard of one square (SquareBB); out-of-board squares, in particular
SQ_NONE = 64, are mapped to the empty board in this model. -/
def squareBB (s : Nat) : Bitboard := if s < 64 then 1 <<< s else 0

/-- Fuel-driven bit counter; popcountAux f n counts the set bits among the
low f bits of n. -/
def popcountAux : Nat → Nat → Nat
  | 0, _ => 0
  | f + 1, n => n % 2 + popcountAux f (n / 2)

/-- popcount of a 64-bit word, as the bitboard primitive popcount. -/
def popcount (n : Bitboard) : Nat := popcountAux 64 n

/-- more_than_one from bitboard.h: true when at least two bits are set. -/
def moreThanOne (b : Bitboard) : Prop := b &&& (b - 1) ≠ 0

instance (b : Bitboard) : Decidable (moreThanOne b) := by
  unfold moreThanOne; infer_instance

/-- Squares (bit indices) of a bitboard in increasing order.  The source
iterates piece lists whose order the Position interface does not specify;
every use in the evaluator is order-insensitive. -/
def bbSquares (b : Bitboard) : List Nat :=
  (List.range 64).filter (fun i => b.testBit i)

/-- Step-attack generator: set of on-board squares reached from s by the
given (file delta, rank delta) offsets. -/
def deltaSqs (s : Nat) (deltas : List (Int × Int)) : Bitboard :=
  if s < 64 then
    deltas.foldl (fun acc d =>
      let f : Int := (fileOf s : Int) + d.1
      let r : Int := (rankOf s : Int) + d.2
      if 0 ≤ f ∧ f < 8 ∧ 0 ≤ r ∧ r < 8 then acc ||| (1 <<< (r * 8 + f).toNat)
      else acc) 0
  else 0

/-- King attacks (PseudoAttacks[KING]); empty for SQ_NONE in this model. -/
def kingAttacksBB (s : Nat) : Bitboard :=
  deltaSqs s [(-1, -1), (0, -1), (1, -1), (-1, 0), (1, 0), (-1, 1), (0, 1), (1, 1)]

/-- Knight attacks (PseudoAttacks[KNIGHT]). -/
def knightAttacksBB (s : Nat) : Bitboard :=
  deltaSqs s [(-2, -1), (-2, 1), (-1, -2), (-1, 2), (1, -2), (1, 2), (2, -1), (2, 1)]

/-- One sliding ray from square (f, r) in direction (df, dr) through
occupancy occ, stopping at (and including) the first occupied square. -/
def slideRay (occ : Bitboard) (df dr : Int) : Nat → Int → Int → Bitboard
  | 0, _, _ => 0
  | fuel + 1, f, r =>
    let f' := f + df
    let r' := r + dr
    if 0 ≤ f' ∧ f' < 8 ∧ 0 ≤ r' ∧ r' < 8 then
      let sq := (r' * 8 + f').toNat
      (1 <<< sq) ||| (if occ.testBit sq then 0 else slideRay occ df dr fuel f' r')
    else 0

/-- Sliding attacks over a list of ray directions (attacks_bb for sliders). -/
def slidingAttacks (ds : List (Int × Int)) (s : Nat) (occ : Bitboard) : Bitboard :=
  if s < 64 then
    ds.foldl (fun acc d => acc ||| slideRay occ d.1 d.2 7 (fileOf s) (rankOf s)) 0
  else 0

/-- Rook attacks through an occupancy, attacks_bb of ROOK. -/
def rookAttacksBB (s : Nat) (occ : Bitboard) : Bitboard :=
  slidingAttacks [(1, 0), (-1, 0), (0, 1), (0, -1)] s occ

/-- Bishop attacks through an occupancy, attacks_bb of BISHOP. -/
def bishopAttacksBB (s : Nat) (occ : Bitboard) : Bitboard :=
  slidingAttacks [(1, 1), (1, -1), (-1, 1), (-1, -1)] s occ

/-- Chebyshev distance between two squares (the distance template). -/
def sqDistance (a b : Nat) : Nat :=
  max ((fileOf a : Int) - fileOf b).natAbs ((rankOf a : Int) - rankOf b).natAbs

/-- File distance between two squares (distance of File). -/
def fileDistance (a b : Nat) : Nat := ((fileOf a : Int) - fileOf b).natAbs

/-- Rank distance between two squares (distance of Rank). -/
def rankDistance (a b : Nat) : Nat := ((rankOf a : Int) - rankOf b).natAbs

/-- LineBB: the full rook- or bishop-line through two aligned squares
(including both), empty when a = b or the squares are not aligned. -/
def lineBB (a b : Nat) : Bitboard :=
  if a < 64 ∧ b < 64 ∧ a ≠ b ∧
      (fileOf a = fileOf b ∨ rankOf a = rankOf b ∨ fileDistance a b = rankDistance a b) then
    (List.range 64).foldl (fun acc t =>
      if ((fileOf b : Int) - fileOf a) * ((rankOf t : Int) - rankOf a) =
          ((rankOf b : Int) - rankOf a) * ((fileOf t : Int) - fileOf a) then
        acc ||| (1 <<< t)
      else acc) 0
  else 0

/-- DistanceRingBB: squares at Chebyshev distance exactly d + 1 from s. -/
def distanceRingBB (s : Nat) (d : Nat) : Bitboard :=
  (List.range 64).foldl (fun acc t =>
    if sqDistance s t = d + 1 then acc ||| (1 <<< t) else acc) 0

def FileABB : Bitboard := 0x0101010101010101
def FileBBB : Bitboard := 0x0202020202020202
def FileCBB : Bitboard := 0x0404040404040404
def FileDBB : Bitboard := 0x0808080808080808
def FileEBB : Bitboard := 0x1010101010101010
def FileFBB : Bitboard := 0x2020202020202020
def FileGBB : Bitboard := 0x4040404040404040
def FileHBB : Bitboard := 0x8080808080808080

def Rank1BB : Bitboard := 0xFF
def Rank2BB : Bitboard := 0xFF00
def Rank3BB : Bitboard := 0xFF0000
def Rank4BB : Bitboard := 0xFF000000
def Rank5BB : Bitboard := 0xFF00000000
def Rank6BB : Bitboard := 0xFF0000000000
def Rank7BB : Bitboard := 0xFF000000000000
def Rank8BB : Bitboard := 0xFF00000000000000

/-- file_bb by file index. -/
def fileBBOf (f : Nat) : Bitboard :=
  [FileABB, FileBBB, FileCBB, FileDBB, FileEBB, FileFBB, FileGBB, FileHBB].getD f 0

/-- rank_bb by rank index. -/
def rankBBOf (r : Nat) : Bitboard :=
  [Rank1BB, Rank2BB, Rank3BB, Rank4BB, Rank5BB, Rank6BB, Rank7BB, Rank8BB].getD r 0

/-- Center = (FileDBB | FileEBB) & (Rank4BB | Rank5BB). -/
def Center : Bitboard := (FileDBB ||| FileEBB) &&& (Rank4BB ||| Rank5BB)

def QueenSide : Bitboard := FileABB ||| FileBBB ||| FileCBB ||| FileDBB
def CenterFiles : Bitboard := FileCBB ||| FileDBB ||| FileEBB ||| FileFBB
def KingSide : Bitboard := FileEBB ||| FileFBB ||| FileGBB ||| FileHBB

/-- KingFlank, indexed by file of the king. -/
def kingFlank (f : Nat) : Bitboard :=
  [QueenSide, QueenSide, QueenSide, CenterFiles, CenterFiles,
   KingSide, KingSide, KingSide].getD f 0

/-- The two colors. -/
inductive Color
  | white
  | black
deriving DecidableEq

/-- Opponent color. -/
def Color.other : Color → Color
  | .white => .black
  | .black => .white

/-- Piece types, with the special slots ALL_PIECES and QUEEN_DIAGONAL used by
the attackedBy table. -/
inductive PieceType
  | allPieces
  | pawn
  | knight
  | bishop
  | rook
  | queen
  | king
  | queenDiagonal
deriving DecidableEq

/-- The variants compiled into this build, in the order of the parameter
tables (the #ifdef order of evaluate.cpp). -/
inductive Variant
  | chess
  | anti
  | atomic
  | crazyhouse
  | extinction
  | grid
  | horde
  | koth
  | losers
  | race
  | relay
  | threecheck
  | twokings
deriving DecidableEq

/-- Score: the (mg, eg) pair packed by make_score; modelled unpacked. -/
structure Score where
  mg : Int
  eg : Int
deriving DecidableEq

/-- make_score, the S(mg, eg) macro of the parameter tables. -/
def S (mg eg : Int) : Score := ⟨mg, eg⟩

def SCORE_ZERO : Score := ⟨0, 0⟩

instance : Add Score := ⟨fun a b => ⟨a.mg + b.mg, a.eg + b.eg⟩⟩
instance : Sub Score := ⟨fun a b => ⟨a.mg - b.mg, a.eg - b.eg⟩⟩
instance : Neg Score := ⟨fun a => ⟨-a.mg, -a.eg⟩⟩

/-- Score * int of the source (component-wise scaling). -/
def Score.sc (s : Score) (n : Int) : Score := ⟨s.mg * n, s.eg * n⟩

/-- Score / int of the source (component-wise truncated division). -/
def Score.sdiv (s : Score) (n : Int) : Score := ⟨Int.tdiv s.mg n, Int.tdiv s.eg n⟩

/-- Directions as bitboard shifts; shift of NORTH etc. for White. -/
def shiftN (b : Bitboard) : Bitboard := shl64 b 8
def shiftS (b : Bitboard) : Bitboard := b >>> 8
def shiftNE (b : Bitboard) : Bitboard := shl64 (b &&& bcompl FileHBB) 9
def shiftNW (b : Bitboard) : Bitboard := shl64 (b &&& bcompl FileABB) 7
def shiftSE (b : Bitboard) : Bitboard := (b &&& bcompl FileHBB) >>> 7
def shiftSW (b : Bitboard) : Bitboard := (b &&& bcompl FileABB) >>> 9

/-- shift of Up for a color (NORTH for White, SOUTH for Black). -/
def shiftUp (c : Color) (b : Bitboard) : Bitboard :=
  match c with
  | .white => shiftN b
  | .black => shiftS b

/-- shift of Down for a color. -/
def shiftDown (c : Color) (b : Bitboard) : Bitboard :=
  match c with
  | .white => shiftS b
  | .black => shiftN b

/-- Forward captures to the left (shift of NORTH_WEST resp. SOUTH_EAST). -/
def shiftUpLeft (c : Color) (b : Bitboard) : Bitboard :=
  match c with
  | .white => shiftNW b
  | .black => shiftSE b

/-- Forward captures to the right (shift of NORTH_EAST resp. SOUTH_WEST). -/
def shiftUpRight (c : Color) (b : Bitboard) : Bitboard :=
  match c with
  | .white => shiftNE b
  | .black => shiftSW b

/-- relative_rank of a square for a color. -/
def relRank (c : Color) (s : Nat) : Nat :=
  match c with
  | .white => rankOf s
  | .black => 7 - rankOf s

/-- relative_square for a color (vertical flip for Black). -/
def relSquare (c : Color) (s : Nat) : Nat :=
  match c with
  | .white => s
  | .black => s ^^^ 56

/-- pawn_push direction as a square offset. -/
def pawnPushDelta (c : Color) : Int :=
  match c with
  | .white => 8
  | .black => -8

/-- forward_file_bb: squares strictly in front of s on its file. -/
def forwardFileBB (c : Color) (s : Nat) : Bitboard :=
  (List.range 64).foldl (fun acc t =>
    if fileOf t = fileOf s ∧
        (if c = .white then rankOf s < rankOf t else rankOf t < rankOf s) then
      acc ||| (1 <<< t)
    else acc) 0

/-- MobilityBonus[variant], rows indexed by piece type - 2 (knight, bishop,
rook, queen), columns by the number of attacked mobility-area squares. -/
def MobilityBonusTable (v : Variant) : List (List Score) :=
  match v with
  | .chess | .grid | .twokings =>
    [[S (-75) (-76), S (-57) (-54), S (-9) (-28), S (-2) (-10), S 6 5, S 14 12,
      S 22 26, S 29 29, S 36 29],
     [S (-48) (-59), S (-20) (-23), S 16 (-3), S 26 13, S 38 24, S 51 42,
      S 55 54, S 63 57, S 63 65, S 68 73, S 81 78, S 81 86, S 91 88, S 98 97],
     [S (-58) (-76), S (-27) (-18), S (-15) 28, S (-10) 55, S (-5) 69, S (-2) 82,
      S 9 112, S 16 118, S 30 132, S 29 142, S 32 155, S 38 165, S 46 166,
      S 48 169, S 58 171],
     [S (-39) (-36), S (-21) (-15), S 3 8, S 3 18, S 14 34, S 22 54,
      S 28 61, S 41 73, S 43 79, S 48 92, S 56 94, S 60 104, S 60 113,
      S 66 120, S 67 123, S 70 126, S 71 133, S 73 136, S 79 140, S 88 143,
      S 88 148, S 99 166, S 102 170, S 102 175, S 106 184, S 109 191,
      S 113 206, S 116 212]]
  | .anti | .losers =>
    [[S (-150) (-152), S (-112) (-108), S (-18) (-52), S (-4) (-20), S 12 10,
      S 30 22, S 44 52, S 60 56, S 72 58],
     [S (-96) (-116), S (-42) (-38), S 32 (-4), S 52 24, S 74 44, S 102 84,
      S 108 108, S 126 116, S 130 126, S 142 140, S 158 148, S 162 172,
      S 184 180, S 194 188],
     [S (-112) (-156), S (-50) (-36), S (-22) 52, S (-10) 110, S (-8) 140,
      S (-2) 162, S 16 218, S 28 240, S 42 256, S 46 286, S 62 308, S 64 320,
      S 86 330, S 98 336, S 118 338],
     [S (-80) (-70), S (-50) (-24), S 4 14, S 8 38, S 28 74, S 48 110,
      S 50 124, S 80 152, S 86 158, S 94 174, S 108 188, S 112 204, S 120 222,
      S 140 232, S 144 236, S 146 244, S 150 256, S 154 260, S 170 266,
      S 188 272, S 198 280, S 216 314, S 224 316, S 226 322, S 236 348,
      S 238 354, S 246 382, S 256 398]]
  | .atomic =>
    [[S (-85) (-78), S (-78) (-63), S (-35) (-40), S (-2) (-24), S 14 8,
      S 23 25, S 39 26, S 30 23, S 36 29],
     [S (-55) (-64), S (-17) (-34), S 13 (-9), S 24 20, S 22 25, S 57 38,
      S 32 52, S 67 66, S 52 52, S 57 74, S 73 77, S 85 81, S 92 90, S 110 86],
     [S (-60) (-73), S (-33) (-28), S (-18) 9, S (-19) 30, S (-19) 58, S 20 77,
      S 12 106, S 11 133, S 21 134, S 33 165, S 34 169, S 39 183, S 25 171,
      S 61 181, S 58 158],
     [S (-43) (-43), S (-14) (-16), S (-5) 1, S 0 23, S 6 24, S 24 58,
      S 20 55, S 31 67, S 47 90, S 28 79, S 47 89, S 69 104, S 64 111,
      S 75 128, S 72 114, S 48 132, S 58 130, S 76 134, S 84 124, S 109 131,
      S 114 143, S 103 140, S 105 146, S 109 165, S 116 156, S 127 176,
      S 130 174, S 129 204]]
  | .crazyhouse =>
    [[S (-126) (-96), S (-103) (-31), S (-90) (-27), S (-40) 3, S 0 3, S 4 0,
      S 20 12, S 15 33, S 50 46],
     [S (-156) (-79), S (-115) (-43), S 42 (-14), S 35 26, S 64 26, S 74 38,
      S 70 46, S 83 71, S 70 68, S 66 80, S 64 68, S 70 77, S 97 92, S 89 98],
     [S (-53) (-53), S (-22) (-8), S (-48) 30, S (-14) 57, S (-4) 77, S 11 87,
      S 7 115, S 12 123, S 27 120, S 6 140, S 55 156, S 18 161, S 51 161,
      S 54 171, S 52 166],
     [S (-26) (-56), S (-24) (-14), S 7 14, S 8 15, S 18 34, S 14 41,
      S 28 58, S 33 66, S 40 70, S 47 74, S 50 100, S 52 106, S 59 111,
      S 50 95, S 60 115, S 61 126, S 75 144, S 82 119, S 95 137, S 102 138,
      S 100 142, S 119 154, S 129 156, S 107 156, S 111 177, S 115 181,
      S 124 197, S 124 199]]
  | .extinction =>
    [[S (-123) (-90), S (-91) (-32), S (-61) (-29), S (-38) 3, S 0 3, S 4 0,
      S 19 12, S 15 33, S 52 45],
     [S (-153) (-80), S (-112) (-41), S 41 (-14), S 35 24, S 62 26, S 75 41,
      S 72 48, S 85 74, S 74 65, S 66 79, S 64 69, S 73 80, S 107 92, S 96 101],
     [S (-59) (-51), S (-20) (-8), S (-54) 32, S (-15) 54, S (-4) 70, S 11 84,
      S 6 113, S 13 123, S 27 114, S 6 144, S 60 162, S 19 162, S 48 170,
      S 57 170, S 52 177],
     [S (-27) (-56), S (-24) (-14), S 7 13, S 9 16, S 18 37, S 14 40,
      S 29 56, S 34 64, S 39 73, S 49 65, S 50 98, S 50 106, S 60 107,
      S 53 92, S 62 119, S 69 130, S 77 145, S 84 120, S 90 153, S 98 131,
      S 106 139, S 116 147, S 127 157, S 112 154, S 121 174, S 124 167,
      S 126 194, S 130 190]]
  | .horde =>
    [[S (-126) (-90), S (-7) (-22), S (-46) (-25), S 19 7, S (-53) 71,
      S 31 (-1), S (-6) 51, S (-12) 47, S (-9) (-56)],
     [S (-46) (-2), S 30 66, S 18 (-27), S 86 21, S 65 11, S 147 45,
      S 98 38, S 95 52, S 122 45, S 95 33, S 89 103, S 85 (-9), S 105 70,
      S 131 82],
     [S (-56) (-78), S (-25) (-18), S (-11) 26, S (-5) 55, S (-4) 70,
      S (-1) 81, S 8 109, S 14 120, S 21 128, S 23 143, S 31 154, S 32 160,
      S 43 165, S 49 168, S 59 169],
     [S (-40) (-35), S (-25) (-12), S 2 7, S 4 19, S 14 37, S 24 55,
      S 25 62, S 40 76, S 43 79, S 47 87, S 54 94, S 56 102, S 60 111,
      S 70 116, S 72 118, S 73 122, S 75 128, S 77 130, S 85 133, S 94 136,
      S 99 140, S 108 157, S 112 158, S 113 161, S 118 174, S 119 177,
      S 123 191, S 128 199]]
  | .koth | .relay =>
    [[S (-75) (-76), S (-56) (-54), S (-9) (-26), S (-2) (-10), S 6 5, S 15 11,
      S 22 26, S 30 28, S 36 29],
     [S (-48) (-58), S (-21) (-19), S 16 (-2), S 26 12, S 37 22, S 51 42,
      S 54 54, S 63 58, S 65 63, S 71 70, S 79 74, S 81 86, S 92 90, S 97 94],
     [S (-56) (-78), S (-25) (-18), S (-11) 26, S (-5) 55, S (-4) 70,
      S (-1) 81, S 8 109, S 14 120, S 21 128, S 23 143, S 31 154, S 32 160,
      S 43 165, S 49 168, S 59 169],
     [S (-40) (-35), S (-25) (-12), S 2 7, S 4 19, S 14 37, S 24 55,
      S 25 62, S 40 76, S 43 79, S 47 87, S 54 94, S 56 102, S 60 111,
      S 70 116, S 72 118, S 73 122, S 75 128, S 77 130, S 85 133, S 94 136,
      S 99 140, S 108 157, S 112 158, S 113 161, S 118 174, S 119 177,
      S 123 191, S 128 199]]
  | .race =>
    [[S (-132) (-117), S (-89) (-110), S (-13) (-49), S (-11) (-15),
      S (-10) (-30), S 29 17, S 13 32, S 79 69, S 109 79],
     [S (-101) (-119), S (-19) (-27), S 27 (-9), S 35 30, S 62 31, S 115 72,
      S 91 99, S 138 122, S 129 119, S 158 156, S 153 162, S 143 189,
      S 172 181, S 196 204],
     [S (-131) (-162), S (-57) (-37), S (-8) 47, S 12 93, S 3 127, S 10 139,
      S 3 240, S 18 236, S 44 251, S 44 291, S 49 301, S 67 316, S 100 324,
      S 97 340, S 110 324],
     [S (-87) (-68), S (-73) (-2), S (-7) 9, S (-5) 16, S 39 76, S 39 118,
      S 64 131, S 86 169, S 86 175, S 78 166, S 97 195, S 123 216, S 137 200,
      S 155 247, S 159 260, S 136 252, S 156 279, S 160 251, S 165 251,
      S 194 267, S 204 271, S 216 331, S 226 304, S 223 295, S 239 316,
      S 228 365, S 240 385, S 249 377]]
  | .threecheck =>
    [[S (-74) (-76), S (-55) (-54), S (-9) (-26), S (-2) (-10), S 6 5, S 15 11,
      S 22 26, S 31 27, S 37 29],
     [S (-49) (-56), S (-23) (-18), S 15 (-2), S 25 12, S 36 22, S 50 42,
      S 53 54, S 64 57, S 67 63, S 71 68, S 84 76, S 79 87, S 95 91, S 98 93],
     [S (-57) (-76), S (-25) (-18), S (-11) 25, S (-5) 53, S (-4) 70,
      S (-1) 78, S 8 111, S 14 116, S 22 125, S 24 148, S 31 159, S 31 173,
      S 44 163, S 50 162, S 56 168],
     [S (-42) (-35), S (-25) (-12), S 2 7, S 4 19, S 14 37, S 24 53,
      S 26 63, S 39 80, S 42 77, S 48 88, S 53 96, S 57 96, S 61 108,
      S 71 116, S 70 116, S 74 125, S 75 133, S 78 133, S 85 137, S 97 135,
      S 103 141, S 107 165, S 109 153, S 115 162, S 119 164, S 121 184,
      S 121 192, S 131 203]]

/-- MobilityBonus lookup: row = Pt - 2 (0 knight .. 3 queen), column = mob. -/
def mobilityBonus (v : Variant) (ptIdx mob : Nat) : Score :=
  ((MobilityBonusTable v).getD ptIdx []).getD mob SCORE_ZERO

/-- Outpost[knight/bishop][supported by pawn]. -/
def Outpost (isBishop supported : Bool) : Score :=
  match isBishop, supported with
  | false, false => S 22 6
  | false, true => S 36 12
  | true, false => S 9 2
  | true, true => S 15 5

/-- RookOnFile[semiopen/open]. -/
def RookOnFile (openFile : Bool) : Score :=
  if openFile then S 45 20 else S 20 7

/-- ThreatByMinor[attacked PieceType]. -/
def ThreatByMinor (pt : PieceType) : Score :=
  match pt with
  | .pawn => S 0 33
  | .knight => S 45 43
  | .bishop => S 46 47
  | .rook => S 72 107
  | .queen => S 48 118
  | _ => S 0 0

/-- ThreatByRook[attacked PieceType]. -/
def ThreatByRook (pt : PieceType) : Score :=
  match pt with
  | .pawn => S 0 25
  | .knight => S 40 62
  | .bishop => S 40 59
  | .rook => S 0 34
  | .queen => S 35 48
  | _ => S 0 0

/-- ThreatByKing[on one/on many]. -/
def ThreatByKing (many : Bool) : Score :=
  if many then S 9 138 else S 3 62

/-- Passed[variant][mg/eg][r] bonuses for passed pawns; phase 0 is MG and
phase 1 is EG; out-of-range ranks yield 0 (the Race column is empty). -/
def passedBonusTable (v : Variant) : List (List Int) :=
  match v with
  | .chess | .anti | .extinction | .koth | .losers | .relay | .threecheck | .twokings =>
    [[5, 5, 31, 73, 166, 252], [7, 14, 38, 73, 166, 252]]
  | .atomic => [[95, 118, 94, 142, 196, 204], [86, 43, 61, 62, 150, 256]]
  | .crazyhouse => [[15, 23, 13, 88, 177, 229], [27, 13, 19, 111, 140, 203]]
  | .grid => [[11, 4, 27, 58, 168, 251], [2, 0, 34, 17, 165, 253]]
  | .horde => [[-66, -25, 66, 68, 72, 250], [10, 7, -12, 81, 210, 258]]
  | .race => []

/-- Passed lookup with an Int rank index as computed in the source. -/
def passedBonus (v : Variant) (phase : Nat) (r : Int) : Int :=
  if 0 ≤ r then ((passedBonusTable v).getD phase []).getD r.toNat 0 else 0

/-- ChecksGivenBonus[CHECKS_NB] (Three-check only). -/
def ChecksGivenBonus (n : Nat) : Score :=
  [S 0 0, S 444 181, S 2425 603, S 0 0].getD n (S 0 0)

/-- KothDistanceBonus[6]. -/
def KothDistanceBonus (d : Nat) : Score :=
  [S 1949 1934, S 454 364, S 151 158, S 75 85, S 42 49, S 0 0].getD d (S 0 0)

def KothSafeCenter : Score := S 163 207

def PieceCountAnti : Score := S 119 123

/-- ThreatsAnti[unprotected/protected]. -/
def ThreatsAnti (i : Bool) : Score := if i then S 411 322 else S 192 203

/-- AttacksAnti[theyCapture][theyDefended][pt], pt indexed as in the enum
(slot 0 = NO_PIECE_TYPE, then PAWN .. KING). -/
def AttacksAnti (theyCapture theyDefended : Bool) (i : Nat) : Score :=
  (match theyCapture, theyDefended with
   | false, false =>
     [S 30 141, S 26 94, S 161 105, S 70 123, S 61 72, S 78 12, S 139 115]
   | false, true =>
     [S 56 89, S 82 107, S 114 93, S 110 115, S 188 112, S 73 59, S 122 59]
   | true, false =>
     [S 119 142, S 99 105, S 123 193, S 142 37, S 118 96, S 50 12, S 91 85]
   | true, true =>
     [S 58 81, S 66 110, S 105 153, S 100 143, S 140 113, S 145 73, S 153 154]
  ).getD i (S 0 0)

/-- ThreatsLosers[unprotected/protected]. -/
def ThreatsLosers (i : Bool) : Score := if i then S 441 341 else S 216 279

/-- AttacksLosers[theyCapture][theyDefended][pt]. -/
def AttacksLosers (theyCapture theyDefended : Bool) (i : Nat) : Score :=
  (match theyCapture, theyDefended with
   | false, false =>
     [S 27 140, S 23 95, S 160 112, S 78 129, S 65 75, S 70 13, S 146 123]
   | false, true =>
     [S 58 82, S 80 112, S 124 87, S 103 110, S 185 107, S 72 60, S 126 62]
   | true, false =>
     [S 111 127, S 102 95, S 121 183, S 140 37, S 120 99, S 55 11, S 88 93]
   | true, true =>
     [S 56 69, S 72 124, S 109 154, S 98 149, S 129 113, S 147 72, S 157 152]
  ).getD i (S 0 0)

/-- KingDangerInHand[PieceType] (Crazyhouse), slot 0 being ALL_PIECES. -/
def KingDangerInHand (pt : PieceType) : Int :=
  match pt with
  | .allPieces => 79
  | .pawn => 16
  | .knight => 200
  | .bishop => 61
  | .rook => 138
  | .queen => 152
  | _ => 0

/-- KingRaceBonus[RANK_NB] (Race). -/
def KingRaceBonus (r : Nat) : Score :=
  [S 14282 14493, S 6369 5378, S 4224 3557, S 2633 2219,
   S 1614 1456, S 975 885, S 528 502, S 0 0].getD r (S 0 0)

/-- PassedFile[File]. -/
def PassedFile (f : Nat) : Score :=
  [S 9 10, S 2 10, S 1 (-8), S (-20) (-12),
   S (-20) (-12), S 1 (-8), S 2 10, S 9 10].getD f (S 0 0)

/-- KingProtector[PieceType - 2]. -/
def KingProtector (ptIdx : Nat) : Score :=
  [S (-3) (-5), S (-4) (-3), S (-3) 0, S (-1) 1].getD ptIdx (S 0 0)

def MinorBehindPawn : Score := S 16 0
def BishopPawns : Score := S 8 12
def LongRangedBishop : Score := S 22 0
def RookOnPawn : Score := S 8 24
def TrappedRook : Score := S 92 0
def WeakQueen : Score := S 50 10

/-- CloseEnemies[variant]. -/
def CloseEnemies (v : Variant) : Score :=
  match v with
  | .chess | .grid | .horde | .koth | .losers | .relay | .twokings => S 7 0
  | .anti | .extinction | .race => S 0 0
  | .atomic => S 17 0
  | .crazyhouse => S 14 20
  | .threecheck => S 16 9

def PawnlessFlank : Score := S 20 80
def ThreatByHangingPawn : Score := S 71 61
def ThreatBySafePawn : Score := S 192 175
def ThreatByRank : Score := S 16 3
def Hanging : Score := S 48 27
def WeakUnopposedPawn : Score := S 5 25
def ThreatByPawnPush : Score := S 38 22
def ThreatByAttackOnQueen : Score := S 38 22
def HinderPassedPawn : Score := S 7 0
def TrappedBishopA1H1 : Score := S 50 50

/-- KingAttackWeights[variant][PieceType]. -/
def kingAttackWeight (v : Variant) (pt : PieceType) : Int :=
  (match v with
   | .chess | .horde | .losers | .relay | .twokings => [0, 0, 78, 56, 45, 11]
   | .anti | .extinction | .race => []
   | .atomic => [0, 0, 76, 64, 46, 11]
   | .crazyhouse => [0, 0, 112, 87, 63, 2]
   | .grid => [0, 0, 89, 62, 47, 11]
   | .koth => [0, 0, 76, 48, 44, 10]
   | .threecheck => [0, 0, 115, 64, 62, 35]
  ).getD
    (match pt with
     | .pawn => 1 | .knight => 2 | .bishop => 3 | .rook => 4 | .queen => 5
     | .king => 6 | _ => 0) 0

/-- KingDangerParams[variant][7]. -/
def kingDangerParams (v : Variant) (i : Nat) : Int :=
  (match v with
   | .chess => [102, 191, 143, -848, -9, 40, 0]
   | .anti | .extinction | .race => []
   | .atomic => [274, 166, 146, -654, -12, -7, 29]
   | .crazyhouse => [119, 439, 130, -613, -6, -1, 320]
   | .grid => [119, 211, 158, -722, -9, 41, 0]
   | .horde => [101, 235, 134, -717, -11, -5, 0]
   | .koth => [85, 229, 131, -658, -9, -5, 0]
   | .losers => [101, 235, 134, -717, -357, -5, 0]
   | .relay => [101, 235, 134, -717, -11, -5, 0]
   | .threecheck => [85, 136, 106, -613, -7, -73, 181]
   | .twokings => [92, 155, 136, -967, -8, 38, 0]
  ).getD i 0

def QueenSafeCheck : Int := 780
def RookSafeCheck : Int := 880
def BishopSafeCheck : Int := 435
def KnightSafeCheck : Int := 790
def IndirectKingAttack : Int := 883

/-- ThreeCheckKSFactors[CHECKS_NB], in Q8 fixed point. -/
def ThreeCheckKSFactors (n : Nat) : Int := [571, 619, 858, 0].getD n 0

/-- Threshold for the lazy evaluation exit. -/
def LazyThreshold : Int := 1500

/-- SpaceThreshold[variant]. -/
def SpaceThreshold (v : Variant) : Int :=
  match v with
  | .horde | .koth => 0
  | _ => 12222

/-- Modelled from the spec: the piece values, game-phase and scale-factor
sentinels live in types.h, which is not part of this repository slice.  The
spec fixes PHASE_MIDGAME = 128 and SCALE_FACTOR_NORMAL = 64 (game phase and
scale factor both range over [0, 128] with 64 the normal scale); the piece
values below are the standard Stockfish middlegame/endgame constants.
Every claim references these constants symbolically, so their exact
numeric values never decide a claim. -/
def PawnValueMg : Int := 188
def KnightValueMg : Int := 753
def BishopValueMg : Int := 826
def RookValueMg : Int := 1285
def QueenValueMg : Int := 2513
def BishopValueEg : Int := 897
def PHASE_MIDGAME : Int := 128
def SCALE_FACTOR_NORMAL : Int := 64
def SCALE_FACTOR_ONEPAWN : Int := 48

/-- Material::Entry, the external material-table record as seen by the
evaluator: imbalance score, game phase, per-side scale factor, and the
optional specialized endgame evaluation (specialized_eval_exists /
evaluate collapsed into one optional value). -/
structure MaterialEntry where
  imbalance : Score
  gamePhase : Int
  scaleFactorOf : Color → Int
  specialized : Option Int

/-- Pawns::Entry, the external pawn-table record as seen by the evaluator. -/
structure PawnEntry where
  pawnAttacks : Color → Bitboard
  pawnAttacksSpan : Color → Bitboard
  passedPawns : Color → Bitboard
  kingSafety : Color → Nat → Score
  pawnsScore : Score
  semiopenFile : Color → Nat → Bool
  semiopenSide : Color → Nat → Bool → Bool
  weakUnopposed : Color → Int
  openFiles : Int
  pawnAsymmetry : Int
  pawnsOnSameColorSquares : Color → Nat → Int

/-- The Position collaborator, reduced to the interface the evaluator uses.
Squares are 0..63 with 64 playing the role of SQ_NONE (a missing king in
the Horde variant).  The global contempt score and the probed material and
pawn entries are carried as fields so that one record holds everything a
call to Evaluation::value reads. -/
structure Position where
  variant : Variant
  sideToMove : Color
  pcs : Color → PieceType → Bitboard
  kingSq : Color → Nat
  canCastle : Color → Bool
  isChess960 : Bool
  countInHand : Color → PieceType → Nat
  checksGiven : Color → Nat
  isHordeColor : Color → Bool
  gridBB : Nat → Bitboard
  pinnedPieces : Color → Bitboard
  sliderBlockersNE : Bitboard → Nat → Bool
  attackersTo : Nat → Bitboard
  nonPawnMaterialOf : Color → Int
  oppositeBishops : Bool
  pawnPassed : Color → Nat → Bool
  isVariantEnd : Bool
  variantResult : Int
  psqScore : Score
  contempt : Score
  me : MaterialEntry
  pe : PawnEntry

/-- pieces(c): all pieces of one color. -/
def Position.colorBB (pos : Position) (c : Color) : Bitboard :=
  pos.pcs c .pawn ||| pos.pcs c .knight ||| pos.pcs c .bishop ||| pos.pcs c .rook
    ||| pos.pcs c .queen ||| pos.pcs c .king

/-- pieces(): the full occupancy. -/
def Position.allBB (pos : Position) : Bitboard :=
  pos.colorBB .white ||| pos.colorBB .black

/-- pieces(pt): both colors of one piece type. -/
def Position.typeBB (pos : Position) (pt : PieceType) : Bitboard :=
  pos.pcs .white pt ||| pos.pcs .black pt

/-- pieces(c, pt1, pt2). -/
def Position.pcs2 (pos : Position) (c : Color) (p1 p2 : PieceType) : Bitboard :=
  pos.pcs c p1 ||| pos.pcs c p2

/-- count of Pt for one color. -/
def Position.countOf (pos : Position) (c : Color) (pt : PieceType) : Nat :=
  popcount (pos.pcs c pt)

/-- count of ALL_PIECES for one color. -/
def Position.countAll (pos : Position) (c : Color) : Nat :=
  popcount (pos.colorBB c)

/-- count of Pt over both colors (count with no color argument). -/
def Position.countBoth (pos : Position) (pt : PieceType) : Nat :=
  popcount (pos.typeBB pt)

/-- piece_on(s), derived from the piece bitboards. -/
def Position.pieceOn (pos : Position) (s : Nat) : Option (Color × PieceType) :=
  if (pos.pcs .white .pawn).testBit s then some (.white, .pawn)
  else if (pos.pcs .white .knight).testBit s then some (.white, .knight)
  else if (pos.pcs .white .bishop).testBit s then some (.white, .bishop)
  else if (pos.pcs .white .rook).testBit s then some (.white, .rook)
  else if (pos.pcs .white .queen).testBit s then some (.white, .queen)
  else if (pos.pcs .white .king).testBit s then some (.white, .king)
  else if (pos.pcs .black .pawn).testBit s then some (.black, .pawn)
  else if (pos.pcs .black .knight).testBit s then some (.black, .knight)
  else if (pos.pcs .black .bishop).testBit s then some (.black, .bishop)
  else if (pos.pcs .black .rook).testBit s then some (.black, .rook)
  else if (pos.pcs .black .queen).testBit s then some (.black, .queen)
  else if (pos.pcs .black .king).testBit s then some (.black, .king)
  else none

/-- empty(s). -/
def Position.emptySq (pos : Position) (s : Nat) : Prop := ¬ (pos.allBB.testBit s = true)

instance (pos : Position) (s : Nat) : Decidable (pos.emptySq s) := by
  unfold Position.emptySq; infer_instance

/-- non_pawn_material() summed over both colors. -/
def Position.npmTotal (pos : Position) : Int :=
  pos.nonPawnMaterialOf .white + pos.nonPawnMaterialOf .black

/-- attacks_from of Pt at square s (slider attacks use the occupancy). -/
def Position.attacksFrom (pos : Position) (pt : PieceType) (s : Nat) : Bitboard :=
  match pt with
  | .knight => knightAttacksBB s
  | .king => kingAttacksBB s
  | .bishop => bishopAttacksBB s pos.allBB
  | .rook => rookAttacksBB s pos.allBB
  | .queen => bishopAttacksBB s pos.allBB ||| rookAttacksBB s pos.allBB
  | _ => 0

/-- Per-side transient state of one Evaluation object. -/
structure SideInfo where
  mobilityArea : Bitboard
  mobilityScore : Score
  atk : PieceType → Bitboard
  attackedBy2 : Bitboard
  kingRing : Bitboard
  kingAttackersCount : Int
  kingAttackersWeight : Int
  kingAdjacentZoneAttacksCount : Int

/-- The full transient evaluation state (the data members of Evaluation). -/
structure EvalState where
  w : SideInfo
  b : SideInfo

/-- Project the state of one color. -/
def EvalState.side (st : EvalState) (c : Color) : SideInfo :=
  match c with
  | .white => st.w
  | .black => st.b

/-- Update the state of one color. -/
def EvalState.upd (st : EvalState) (c : Color) (f : SideInfo → SideInfo) : EvalState :=
  match c with
  | .white => { st with w := f st.w }
  | .black => { st with b := f st.b }

/-- The zero side state; the C++ object leaves most members uninitialized
and assigns each of them before any read, so the initial value is
irrelevant to the embedded functions (mobility alone starts at zero in the
source, and the zero model realizes that). -/
def SideInfo.zero : SideInfo :=
  ⟨0, SCORE_ZERO, fun _ => 0, 0, 0, 0, 0, 0⟩

def EvalState.start : EvalState := ⟨SideInfo.zero, SideInfo.zero⟩

/-- Pointwise update of an attack table at one piece-type slot. -/
def setAtk (a : PieceType → Bitboard) (pt : PieceType) (v : Bitboard) :
    PieceType → Bitboard :=
  fun p => if p = pt then v else a p

/-- King-attack seed of Evaluation::initialize: the union over every king
of the side in the Anti and Extinction variants, the single king's attacks
otherwise. -/
def initKingAtt (pos : Position) (us : Color) : Bitboard :=
  if pos.variant = .anti ∨ pos.variant = .extinction then
    (bbSquares (pos.pcs us .king)).foldl (fun acc sq => acc ||| kingAttacksBB sq) 0
  else kingAttacksBB (pos.kingSq us)

/-- Evaluation::initialize for one color: mobility area, king and pawn
attack seeds, double-attack seed, king ring and the enemy's king-attacker
counters.  (The Lean keyword initialize forces the different name.) -/
def initSide (pos : Position) (us : Color) (st : EvalState) : EvalState :=
  let them := us.other
  let lowRanks := if us = .white then Rank2BB ||| Rank3BB else Rank7BB ||| Rank6BB
  let b0 := pos.pcs us .pawn &&& (shiftDown us pos.allBB ||| lowRanks)
  let mobArea :=
    if pos.variant = .anti then FullBB
    else bcompl (b0 ||| squareBB (pos.kingSq us) ||| pos.pe.pawnAttacks them)
  let kingAtt := initKingAtt pos us
  let pawnAtt := pos.pe.pawnAttacks us
  let st := st.upd us (fun si =>
    { si with
      mobilityArea := mobArea
      atk := setAtk (setAtk (setAtk si.atk .king kingAtt) .pawn pawnAtt)
        .allPieces (kingAtt ||| pawnAtt)
      attackedBy2 := kingAtt &&& pawnAtt })
  if (pos.variant ≠ .anti ∧ pos.variant ≠ .extinction ∧
      pos.nonPawnMaterialOf them ≥ RookValueMg + KnightValueMg) ∨
      pos.variant = .crazyhouse then
    let ring :=
      if relRank us (pos.kingSq us) = 0 then kingAtt ||| shiftUp us kingAtt else kingAtt
    let st := st.upd us (fun si => { si with kingRing := ring })
    st.upd them (fun si =>
      { si with
        kingAttackersCount := (popcount (kingAtt &&& pos.pe.pawnAttacks them) : Int)
        kingAdjacentZoneAttacksCount := 0
        kingAttackersWeight := 0 })
  else
    let st := st.upd us (fun si => { si with kingRing := 0 })
    st.upd them (fun si => { si with kingAttackersCount := 0 })

/-- Row index Pt - 2 used by MobilityBonus and KingProtector. -/
def ptIdx : PieceType → Nat
  | .knight => 0
  | .bishop => 1
  | .rook => 2
  | .queen => 3
  | _ => 0

/-- Attack set of a piece of type pt on s: x-rays for bishops and rooks,
direct attacks otherwise, restricted by the Grid mask and the pin line. -/
def pieceAttackBB (pos : Position) (us : Color) (pt : PieceType) (s : Nat) : Bitboard :=
  let batt :=
    if pt = .bishop then bishopAttacksBB s (pos.allBB ^^^ pos.typeBB .queen)
    else if pt = .rook then
      rookAttacksBB s (pos.allBB ^^^ pos.typeBB .queen ^^^ pos.pcs us .rook)
    else pos.attacksFrom pt s
  let batt := if pos.variant = .grid then batt &&& bcompl (pos.gridBB s) else batt
  if (pos.pinnedPieces us).testBit s then batt &&& lineBB (pos.kingSq us) s else batt

/-- State changes of the evaluate_pieces loop body for one piece on s: the
attackedBy/attackedBy2 merge, the queen-diagonal slot, king-ring pressure
counters and the mobility accumulator. -/
def pieceStateStep (pos : Position) (us : Color) (pt : PieceType)
    (st : EvalState) (s : Nat) : EvalState :=
  let them := us.other
  let b := pieceAttackBB pos us pt s
  let st := st.upd us (fun si =>
    let newPt := si.atk pt ||| b
    { si with
      attackedBy2 := si.attackedBy2 ||| (si.atk .allPieces &&& b)
      atk := setAtk (setAtk si.atk pt newPt) .allPieces (si.atk .allPieces ||| newPt) })
  let st :=
    if pt = .queen then
      st.upd us (fun si =>
        { si with
          atk := setAtk si.atk .queenDiagonal
            (si.atk .queenDiagonal ||| (b &&& bishopAttacksBB s 0)) })
    else st
  let st :=
    if b &&& (st.side them).kingRing ≠ 0 then
      st.upd us (fun si =>
        { si with
          kingAttackersCount := si.kingAttackersCount + 1
          kingAttackersWeight := si.kingAttackersWeight + kingAttackWeight pos.variant pt
          kingAdjacentZoneAttacksCount := si.kingAdjacentZoneAttacksCount +
            (popcount (b &&& (st.side them).atk .king) : Int) })
    else st
  let mob := popcount (b &&& (st.side us).mobilityArea)
  st.upd us (fun si =>
    { si with mobilityScore := si.mobilityScore + mobilityBonus pos.variant (ptIdx pt) mob })

/-- Score contribution of the evaluate_pieces loop body for one piece on s
(king protector, outposts, minor/rook/queen bonuses); st is the state after
the corresponding pieceStateStep, as in the source, and all components it
reads are untouched by that step. -/
def pieceScoreStep (pos : Position) (us : Color) (pt : PieceType)
    (st : EvalState) (score : Score) (s : Nat) : Score :=
  let them := us.other
  let outpostRanks :=
    if us = .white then Rank4BB ||| Rank5BB ||| Rank6BB
    else Rank5BB ||| Rank4BB ||| Rank3BB
  let b := pieceAttackBB pos us pt s
  let mob := popcount (b &&& (st.side us).mobilityArea)
  if pos.variant = .anti then score
  else
    let score :=
      if pos.variant = .horde ∧ pos.isHordeColor us then score
      else score + (KingProtector (ptIdx pt)).sc (sqDistance s (pos.kingSq us))
    let score :=
      if pt = .bishop ∨ pt = .knight then
        let bb := outpostRanks &&& bcompl (pos.pe.pawnAttacksSpan them)
        let score :=
          if bb.testBit s then
            score + (Outpost (decide (pt = .bishop))
              (decide (((st.side us).atk .pawn &&& squareBB s) ≠ 0))).sc 2
          else
            let bb2 := bb &&& b &&& bcompl (pos.colorBB us)
            if bb2 ≠ 0 then
              score + Outpost (decide (pt = .bishop))
                (decide (((st.side us).atk .pawn &&& bb2) ≠ 0))
            else score
        let score :=
          if relRank us s < 4 ∧
              (pos.typeBB .pawn).testBit ((s : Int) + pawnPushDelta us).toNat then
            score + MinorBehindPawn
          else score
        let score :=
          if pt = .bishop then
            let score := score - BishopPawns.sc (pos.pe.pawnsOnSameColorSquares us s)
            if moreThanOne (Center &&& (bishopAttacksBB s (pos.typeBB .pawn) ||| squareBB s)) then
              score + LongRangedBishop
            else score
          else score
        let score :=
          if pt = .bishop ∧ pos.isChess960 ∧ (s = relSquare us 0 ∨ s = relSquare us 7) then
            let d : Int := pawnPushDelta us + (if fileOf s = 0 then 1 else -1)
            if pos.pieceOn ((s : Int) + d).toNat = some (us, .pawn) then
              if ¬ pos.emptySq ((s : Int) + d + pawnPushDelta us).toNat then
                score - TrappedBishopA1H1.sc 4
              else if pos.pieceOn ((s : Int) + d + d).toNat = some (us, .pawn) then
                score - TrappedBishopA1H1.sc 2
              else score - TrappedBishopA1H1
            else score
          else score
        score
      else score
    let score :=
      if pt = .rook then
        let score :=
          if relRank us s ≥ 4 then
            score + RookOnPawn.sc (popcount (pos.pcs them .pawn &&& rookAttacksBB s 0))
          else score
        if pos.pe.semiopenFile us (fileOf s) then
          score + RookOnFile (pos.pe.semiopenFile them (fileOf s))
        else if mob ≤ 3 then
          let ksq := pos.kingSq us
          if (decide (fileOf ksq < 4) = decide (fileOf s < fileOf ksq)) ∧
              ¬ pos.pe.semiopenSide us (fileOf ksq) (decide (fileOf s < fileOf ksq)) then
            score - (TrappedRook - S ((mob : Int) * 22) 0).sc
              (1 + (if ¬ pos.canCastle us then 1 else 0))
          else score
        else score
      else score
    if pt = .queen then
      if pos.sliderBlockersNE (pos.pcs2 them .rook .bishop) s then score - WeakQueen
      else score
    else score

/-- Loop body of Evaluation::evaluate_pieces for one piece of type pt on
square s: the state updates, then the score bonuses in source order. -/
def pieceStep (pos : Position) (us : Color) (pt : PieceType)
    (acc : EvalState × Score) (s : Nat) : EvalState × Score :=
  let st := pieceStateStep pos us pt acc.1 s
  (st, pieceScoreStep pos us pt st acc.2 s)

/-- Evaluation::evaluate_pieces for one color and piece type: zero the
attack slot (and the queen-diagonal slot for queens) and fold the loop
body over the piece squares. -/
def evaluate_pieces (pos : Position) (us : Color) (pt : PieceType) (st : EvalState) :
    EvalState × Score :=
  let st := st.upd us (fun si => { si with atk := setAtk si.atk pt 0 })
  let st :=
    if pt = .queen then
      st.upd us (fun si => { si with atk := setAtk si.atk .queenDiagonal 0 })
    else st
  (bbSquares (pos.pcs us pt)).foldl (pieceStep pos us pt) (st, SCORE_ZERO)

/-- Camp: our half of the board extended by one rank, as in evaluate_king. -/
def campBB (us : Color) : Bitboard :=
  match us with
  | .white => FullBB ^^^ Rank6BB ^^^ Rank7BB ^^^ Rank8BB
  | .black => FullBB ^^^ Rank1BB ^^^ Rank2BB ^^^ Rank3BB

/-- King-tropism flank bitboard: squares the opponent attacks in our king
flank and our camp (the bitboard the two assertions in evaluate_king are
about). -/
def tropismFlankBB (pos : Position) (st : EvalState) (us : Color) : Bitboard :=
  (st.side us.other).atk .allPieces &&& kingFlank (fileOf (pos.kingSq us)) &&& campBB us

/-- Guard of the main king-danger block in evaluate_king, exactly as in the
source: enough king-ring attackers, with the Horde hack that skips the
block when our king square is SQ_NONE. -/
def kingDangerGuard (pos : Position) (st : EvalState) (us : Color) : Bool :=
  decide ((st.side us.other).kingAttackersCount >
      1 - (pos.countOf us.other .queen : Int)) &&
    !(decide (pos.variant = .horde) && decide (pos.kingSq us = 64))

/-- Score change applied by the main king-danger block of evaluate_king
(weak squares, safe checks, composite king danger, the atomic adjacency
malus), as a value to add to the running score.  The shelter argument is
the score accumulated so far (pe->king_safety), which feeds the
mg-score/8 king-danger term. -/
def kingDangerDelta (pos : Position) (st : EvalState) (us : Color) (shelter : Score) : Score :=
  let them := us.other
  let ksq := pos.kingSq us
  let weak :=
    if pos.variant = .atomic then
      ((st.side them).atk .allPieces ||| (pos.colorBB them ^^^ pos.pcs them .king)) &&&
        ((st.side us).atk .king |||
          ((st.side us).atk .queen &&& bcompl (st.side us).attackedBy2) |||
          bcompl ((st.side us).atk .allPieces))
    else
      (st.side them).atk .allPieces &&& bcompl (st.side us).attackedBy2 &&&
        ((st.side us).atk .king ||| (st.side us).atk .queen |||
          bcompl ((st.side us).atk .allPieces))
  let h0 : Bitboard :=
    if pos.variant = .crazyhouse then
      if pos.countInHand them .queen ≠ 0 then weak &&& bcompl pos.allBB else 0
    else 0
  let safe := bcompl (pos.colorBB them) &&&
    (bcompl ((st.side us).atk .allPieces) ||| (weak &&& (st.side them).attackedBy2))
  let safe := if pos.variant = .atomic then safe ||| (st.side us).atk .king else safe
  let dqko := bcompl (st.side us).attackedBy2 &&&
    ((st.side us).atk .queen ||| (st.side us).atk .king)
  let dropSafe := (safe ||| ((st.side them).atk .allPieces &&& dqko)) &&&
    bcompl (pos.colorBB us)
  let b1 := rookAttacksBB ksq (pos.allBB ^^^ pos.pcs us .queen)
  let b2 := bishopAttacksBB ksq (pos.allBB ^^^ pos.pcs us .queen)
  let kd : Int :=
    if (b1 ||| b2) &&& (h0 ||| (st.side them).atk .queen) &&& safe &&&
        bcompl ((st.side us).atk .queen) ≠ 0 then QueenSafeCheck
    else 0
  let safe :=
    if pos.variant = .threecheck ∧ pos.checksGiven them ≠ 0 then
      bcompl (pos.colorBB them)
    else safe
  let hR : Bitboard :=
    if pos.variant = .crazyhouse ∧ pos.countInHand them .rook ≠ 0 then bcompl pos.allBB
    else 0
  let rookCheck := b1 &&& (((st.side them).atk .rook &&& safe) ||| (hR &&& dropSafe)) ≠ 0
  let kd := if rookCheck then kd + RookSafeCheck else kd
  let nsc : Bitboard := if rookCheck then 0 else b1 &&& ((st.side them).atk .rook ||| hR)
  let hB : Bitboard :=
    if pos.variant = .crazyhouse ∧ pos.countInHand them .bishop ≠ 0 then bcompl pos.allBB
    else 0
  let bishopCheck := b2 &&& (((st.side them).atk .bishop &&& safe) ||| (hB &&& dropSafe)) ≠ 0
  let kd := if bishopCheck then kd + BishopSafeCheck else kd
  let nsc := if bishopCheck then nsc else nsc ||| (b2 &&& ((st.side them).atk .bishop ||| hB))
  let bN := knightAttacksBB ksq
  let hN : Bitboard :=
    if pos.variant = .crazyhouse ∧ pos.countInHand them .knight ≠ 0 then bcompl pos.allBB
    else 0
  let knightCheck := bN &&& (((st.side them).atk .knight &&& safe) ||| (hN &&& dropSafe)) ≠ 0
  let kd := if knightCheck then kd + KnightSafeCheck else kd
  let nsc := if knightCheck then nsc else nsc ||| (bN &&& ((st.side them).atk .knight ||| hN))
  let nsc := nsc &&& (st.side them).mobilityArea
  let kd := kd + (st.side them).kingAttackersCount * (st.side them).kingAttackersWeight
    + kingDangerParams pos.variant 0 * (st.side them).kingAdjacentZoneAttacksCount
    + kingDangerParams pos.variant 1 * (popcount ((st.side us).kingRing &&& weak) : Int)
    + kingDangerParams pos.variant 2 * (popcount (pos.pinnedPieces us ||| nsc) : Int)
    + kingDangerParams pos.variant 3 * (if pos.countOf them .queen = 0 then 1 else 0)
    + Int.tdiv (kingDangerParams pos.variant 4 * shelter.mg) 8
    + kingDangerParams pos.variant 5
  let kd :=
    if pos.variant = .crazyhouse then
      kd + KingDangerInHand .allPieces * (pos.countInHand them .allPieces : Int)
        + KingDangerInHand .pawn * (pos.countInHand them .pawn : Int)
        + KingDangerInHand .knight * (pos.countInHand them .knight : Int)
        + KingDangerInHand .bishop * (pos.countInHand them .bishop : Int)
        + KingDangerInHand .rook * (pos.countInHand them .rook : Int)
        + KingDangerInHand .queen * (pos.countInHand them .queen : Int)
    else kd
  let kd :=
    if pos.variant = .atomic then
      kd + IndirectKingAttack * (popcount (kingAttacksBB (pos.kingSq us) &&&
        pos.colorBB us &&& (st.side them).atk .allPieces) : Int)
    else kd
  let atomicAdjust :=
    if pos.variant = .atomic then
      -(S 100 100).sc (popcount ((st.side us).atk .king &&& pos.allBB))
    else SCORE_ZERO
  let danger :=
    if kd > 0 then
      let kd :=
        if pos.variant = .threecheck then
          Int.tdiv (ThreeCheckKSFactors (pos.checksGiven them) * kd) 256
        else kd
      let v := Int.tdiv (kd * kd) 4096
      let v := if pos.variant = .atomic ∧ v > QueenValueMg then QueenValueMg else v
      let v :=
        if pos.variant = .crazyhouse ∧ us = pos.sideToMove then v - Int.tdiv v 10 else v
      let v := if pos.variant = .crazyhouse ∧ v > QueenValueMg then QueenValueMg else v
      let v := if pos.variant = .threecheck ∧ v > QueenValueMg then QueenValueMg else v
      Neg.neg (S v (Int.tdiv kd 16 + Int.tdiv (kingDangerParams pos.variant 6 * v) 256))
    else SCORE_ZERO
  atomicAdjust + danger

/-- Evaluation::evaluate_king for one color: shelter, the guarded main
king-danger block, king tropism on the king flank, and the pawnless-flank
penalty. -/
def evaluate_king (pos : Position) (st : EvalState) (us : Color) : Score :=
  let ksq := pos.kingSq us
  let shelter := pos.pe.kingSafety us ksq
  let score := shelter
  let score :=
    if kingDangerGuard pos st us then score + kingDangerDelta pos st us shelter else score
  let b := tropismFlankBB pos st us
  let b := (if us = .white then shl64 b 4 else b >>> 4) |||
    (b &&& (st.side us.other).attackedBy2 &&& bcompl ((st.side us).atk .pawn))
  let score := score - (CloseEnemies pos.variant).sc (popcount b)
  let score :=
    if pos.typeBB .pawn &&& kingFlank (fileOf ksq) = 0 then score - PawnlessFlank
    else score
  score

/-- PieceType slot index in the C++ enum (NO_PIECE_TYPE = 0, PAWN = 1 ..). -/
def ptEnumIdx : PieceType → Nat
  | .allPieces => 0
  | .pawn => 1
  | .knight => 2
  | .bishop => 3
  | .rook => 4
  | .queen => 5
  | .king => 6
  | .queenDiagonal => 7

/-- type_of(piece_on(s)); an empty square maps to the NO_PIECE_TYPE slot. -/
def typeOn (pos : Position) (s : Nat) : PieceType :=
  match pos.pieceOn s with
  | some (_, pt) => pt
  | none => .allPieces

/-- Evaluation::evaluate_threats for one color, with the Anti and Losers
dialects, the empty Atomic dialect, and the standard dialect with its
Three-check and Horde additions. -/
def evaluate_threats (pos : Position) (st : EvalState) (us : Color) : Score :=
  let them := us.other
  let tRank3BB := if us = .white then Rank3BB else Rank6BB
  if pos.variant = .anti then
    let tRank2BB := if us = .white then Rank2BB else Rank7BB
    let weCapture := (st.side us).atk .allPieces &&& pos.colorBB them ≠ 0
    let theyCapture := (st.side them).atk .allPieces &&& pos.colorBB us ≠ 0
    let score := SCORE_ZERO
    let score :=
      if weCapture then
        let theyDefended :=
          (st.side us).atk .allPieces &&& pos.colorBB them &&&
            (st.side them).atk .allPieces ≠ 0
        let score :=
          [PieceType.pawn, .knight, .bishop, .rook, .queen, .king].foldl (fun sc pt =>
            if (st.side us).atk pt &&& pos.colorBB them &&&
                bcompl (st.side us).attackedBy2 ≠ 0 then
              sc - AttacksAnti (decide theyCapture) (decide theyDefended) (ptEnumIdx pt)
            else if (st.side us).atk pt &&& pos.colorBB them ≠ 0 then
              sc - AttacksAnti (decide theyCapture) (decide theyDefended) 0
            else sc) score
        if theyCapture then score - PieceCountAnti.sc (pos.countAll us : Int) else score
      else score
    if ¬ weCapture ∨ theyCapture then
      let bp := pos.pcs us .pawn
      let pawnPushes :=
        shiftUp us (bp ||| (shiftUp us (bp &&& tRank2BB) &&& bcompl pos.allBB)) &&&
          bcompl pos.allBB
      let pieceMoves :=
        ((st.side us).atk .knight ||| (st.side us).atk .bishop ||| (st.side us).atk .rook
          ||| (st.side us).atk .queen ||| (st.side us).atk .king) &&& bcompl pos.allBB
      let threats := pawnPushes ||| pieceMoves
      let unprotectedPawnPushes := pawnPushes &&& bcompl ((st.side us).atk .allPieces)
      let unprotectedPieceMoves := pieceMoves &&& bcompl (st.side us).attackedBy2
      let safeThreats := unprotectedPawnPushes ||| unprotectedPieceMoves
      score + (ThreatsAnti false).sc (popcount ((st.side them).atk .allPieces &&& threats) : Int)
        + (ThreatsAnti true).sc (popcount ((st.side them).atk .allPieces &&& safeThreats) : Int)
    else score
  else if pos.variant = .atomic then SCORE_ZERO
  else if pos.variant = .losers then
    let tRank2BB := if us = .white then Rank2BB else Rank7BB
    let weCapture := (st.side us).atk .allPieces &&& pos.colorBB them ≠ 0
    let theyCapture := (st.side them).atk .allPieces &&& pos.colorBB us ≠ 0
    let score := SCORE_ZERO
    let score :=
      if weCapture then
        let theyDefended :=
          (st.side us).atk .allPieces &&& pos.colorBB them &&&
            (st.side them).atk .allPieces ≠ 0
        [PieceType.pawn, .knight, .bishop, .rook, .queen, .king].foldl (fun sc pt =>
          if (st.side us).atk pt &&& pos.colorBB them &&&
              bcompl (st.side us).attackedBy2 ≠ 0 then
            sc - AttacksLosers (decide theyCapture) (decide theyDefended) (ptEnumIdx pt)
          else if (st.side us).atk pt &&& pos.colorBB them ≠ 0 then
            sc - AttacksLosers (decide theyCapture) (decide theyDefended) 0
          else sc) score
      else score
    if ¬ weCapture ∨ theyCapture then
      let bp := pos.pcs us .pawn
      let pawnPushes :=
        shiftUp us (bp ||| (shiftUp us (bp &&& tRank2BB) &&& bcompl pos.allBB)) &&&
          bcompl pos.allBB
      let pieceMoves :=
        ((st.side us).atk .knight ||| (st.side us).atk .bishop ||| (st.side us).atk .rook
          ||| (st.side us).atk .queen ||| (st.side us).atk .king) &&& bcompl pos.allBB
      let threats := pawnPushes ||| pieceMoves
      let unprotectedPawnPushes := pawnPushes &&& bcompl ((st.side us).atk .allPieces)
      let unprotectedPieceMoves := pieceMoves &&& bcompl (st.side us).attackedBy2
      let safeThreats := unprotectedPawnPushes ||| unprotectedPieceMoves
      score + (ThreatsLosers false).sc (popcount ((st.side them).atk .allPieces &&& threats) : Int)
        + (ThreatsLosers true).sc (popcount ((st.side them).atk .allPieces &&& safeThreats) : Int)
    else score
  else
    let weakPawnTargets := (pos.colorBB them ^^^ pos.pcs them .pawn) &&& (st.side us).atk .pawn
    let score := SCORE_ZERO
    let score :=
      if weakPawnTargets ≠ 0 then
        let bsafe := pos.pcs us .pawn &&&
          (bcompl ((st.side them).atk .allPieces) ||| (st.side us).atk .allPieces)
        let safeThreats := (shiftUpRight us bsafe ||| shiftUpLeft us bsafe) &&& weakPawnTargets
        let score := score + ThreatBySafePawn.sc (popcount safeThreats : Int)
        if weakPawnTargets ^^^ safeThreats ≠ 0 then score + ThreatByHangingPawn else score
      else score
    let stronglyProtected := (st.side them).atk .pawn |||
      ((st.side them).attackedBy2 &&& bcompl (st.side us).attackedBy2)
    let defended := (pos.colorBB them ^^^ pos.pcs them .pawn) &&& stronglyProtected
    let weak := pos.colorBB them &&& bcompl stronglyProtected &&& (st.side us).atk .allPieces
    let score :=
      if defended ||| weak ≠ 0 then
        let minorTargets := (defended ||| weak) &&&
          ((st.side us).atk .knight ||| (st.side us).atk .bishop)
        let score := (bbSquares minorTargets).foldl (fun sc sq =>
          let t := typeOn pos sq
          let sc := sc + ThreatByMinor t
          if t ≠ .pawn then sc + ThreatByRank.sc (relRank them sq : Int) else sc) score
        let rookTargets := (pos.pcs them .queen ||| weak) &&& (st.side us).atk .rook
        let score := (bbSquares rookTargets).foldl (fun sc sq =>
          let t := typeOn pos sq
          let sc := sc + ThreatByRook t
          if t ≠ .pawn then sc + ThreatByRank.sc (relRank them sq : Int) else sc) score
        let score := score +
          Hanging.sc (popcount (weak &&& bcompl ((st.side them).atk .allPieces)) : Int)
        let bk := weak &&& (st.side us).atk .king
        if bk ≠ 0 then score + ThreatByKing (decide (moreThanOne bk)) else score
      else score
    let score :=
      if pos.pcs2 us .rook .queen ≠ 0 then
        score + WeakUnopposedPawn.sc (pos.pe.weakUnopposed them)
      else score
    let bpush := shiftUp us (pos.pcs us .pawn) &&& bcompl pos.allBB
    let bpush := bpush ||| (shiftUp us (bpush &&& tRank3BB) &&& bcompl pos.allBB)
    let bpush := bpush &&& bcompl ((st.side them).atk .pawn) &&&
      ((st.side us).atk .allPieces ||| bcompl ((st.side them).atk .allPieces))
    let bthreat := (shiftUpLeft us bpush ||| shiftUpRight us bpush) &&&
      pos.colorBB them &&& bcompl ((st.side us).atk .pawn)
    let score := score + ThreatByPawnPush.sc (popcount bthreat : Int)
    let score :=
      if pos.variant = .threecheck then score + ChecksGivenBonus (pos.checksGiven us)
      else score
    let score :=
      if pos.variant = .horde ∧ pos.isHordeColor them then
        if pos.pcs us .rook ||| pos.pcs us .queen ≠ 0 then
          let minWall : Nat :=
            if ((st.side us).atk .queen ||| (st.side us).atk .rook) &&& rankBBOf 0 ≠ 0 then 0
            else
              (List.range 8).foldl (fun m f =>
                let pawns := popcount (pos.pcs them .pawn &&& fileBBOf f)
                let pawnsl :=
                  if f > 0 then min (popcount (pos.pcs them .pawn &&& fileBBOf (f - 1))) pawns
                  else 0
                let pawnsr :=
                  if f < 7 then min (popcount (pos.pcs them .pawn &&& fileBBOf (f + 1))) pawns
                  else 0
                min m (pawnsl + pawnsr)) 8
          score + ((ThreatByHangingPawn.sc (pos.countOf them .pawn : Int)).sdiv
            (1 + (minWall : Int))).sdiv (if pos.pcs us .queen ≠ 0 then 2 else 4)
        else score
      else score
    let safeSliderThreats := bcompl (pos.colorBB us) &&&
      bcompl ((st.side them).attackedBy2) &&& (st.side us).attackedBy2
    let bq := ((st.side us).atk .bishop &&& (st.side them).atk .queenDiagonal) |||
      ((st.side us).atk .rook &&& (st.side them).atk .queen &&&
        bcompl ((st.side them).atk .queenDiagonal))
    score + ThreatByAttackOnQueen.sc (popcount (bq &&& safeSliderThreats) : Int)

/-- The per-passer (mbonus, ebonus) pair of evaluate_passed_pawns before
the candidate-passer halving: base rank bonuses, king-proximity endgame
adjustments (with the Horde, Anti and Atomic branches), and the
path-to-queen bonus or blocked-by-own-piece bonus. -/
def passedPawnPreBonus (pos : Position) (st : EvalState) (us : Color) (s : Nat) :
    Int × Int :=
  let them := us.other
  let r : Int := (relRank us s : Int) - 1
  let rr : Int := r * (r - 1)
  let mb := passedBonus pos.variant 0 r
  let eb := passedBonus pos.variant 1 r
  if rr ≠ 0 then
    let blockSq : Nat := ((s : Int) + pawnPushDelta us).toNat
    let eb :=
      if pos.variant = .horde then
        if pos.isHordeColor us then
          eb + (sqDistance (pos.kingSq them) blockSq : Int) * 5 * rr - 10 * rr
        else eb + 25 * rr - (sqDistance (pos.kingSq us) blockSq : Int) * 2 * rr
      else if pos.variant = .anti then eb
      else if pos.variant = .atomic then
        eb + (sqDistance (pos.kingSq them) blockSq : Int) * 5 * rr
      else
        let eb := eb + (sqDistance (pos.kingSq them) blockSq : Int) * 5 * rr -
          (sqDistance (pos.kingSq us) blockSq : Int) * 2 * rr
        if relRank us blockSq ≠ 7 then
          eb - (sqDistance (pos.kingSq us) ((blockSq : Int) + pawnPushDelta us).toNat : Int) * rr
        else eb
    if pos.emptySq blockSq then
      let squaresToQueen := forwardFileBB us s
      let behind := forwardFileBB them s &&& (pos.typeBB .rook ||| pos.typeBB .queen) &&&
        rookAttacksBB s pos.allBB
      let defendedSquares :=
        if pos.colorBB us &&& behind = 0 then squaresToQueen &&& (st.side us).atk .allPieces
        else squaresToQueen
      let unsafeSquares :=
        if pos.colorBB them &&& behind = 0 then
          squaresToQueen &&& ((st.side them).atk .allPieces ||| pos.colorBB them)
        else squaresToQueen
      let k : Int :=
        if unsafeSquares = 0 then 18
        else if unsafeSquares &&& squareBB blockSq = 0 then 8
        else 0
      let k :=
        if defendedSquares = squaresToQueen then k + 6
        else if defendedSquares &&& squareBB blockSq ≠ 0 then k + 4
        else k
      (mb + k * rr, eb + k * rr)
    else if (pos.colorBB us).testBit blockSq then (mb + rr + r * 2, eb + rr + r * 2)
    else (mb, eb)
  else (mb, eb)

/-- The halving condition of evaluate_passed_pawns, as written in the
source: the pawn does not stay passed after one push, or some pawn stands
on its forward file. -/
def passedHalveCond (pos : Position) (us : Color) (s : Nat) : Prop :=
  ¬ pos.pawnPassed us ((s : Int) + pawnPushDelta us).toNat = true ∨
    pos.typeBB .pawn &&& forwardFileBB us s ≠ 0

instance (pos : Position) (us : Color) (s : Nat) :
    Decidable (passedHalveCond pos us s) := by
  unfold passedHalveCond; infer_instance

/-- Full per-passer contribution of evaluate_passed_pawns: hinder penalty,
candidate-passer halving of the (mg, eg) bonuses, and the file bonus. -/
def passedPawnTerm (pos : Position) (st : EvalState) (us : Color) (s : Nat) : Score :=
  let hinder := HinderPassedPawn.sc
    (popcount (forwardFileBB us s &&&
      ((st.side us.other).atk .allPieces ||| pos.colorBB us.other)) : Int)
  let pre := passedPawnPreBonus pos st us s
  let mb := if passedHalveCond pos us s then Int.tdiv pre.1 2 else pre.1
  let eb := if passedHalveCond pos us s then Int.tdiv pre.2 2 else pre.2
  SCORE_ZERO - hinder + (S mb eb + PassedFile (fileOf s))

/-- Evaluation::evaluate_passed_pawns for one color; the Race variant
replaces the whole sub-evaluation by the king-race bonus and KotH adds the
center-distance bonuses before the passer loop. -/
def evaluate_passed_pawns (pos : Position) (st : EvalState) (us : Color) : Score :=
  if pos.variant = .race then
    let ksq := pos.kingSq us
    let kr := rankOf ksq
    let scnt :=
      (List.range 8).foldl (fun cnt rk =>
        if kr < rk ∧ (rankBBOf rk &&& distanceRingBB ksq (rk - 1 - kr) &&&
            bcompl ((st.side us.other).atk .allPieces) &&& bcompl (pos.colorBB us)) = 0 then
          cnt + 1
        else cnt) (relRank .black ksq)
    KingRaceBonus (min scnt 7)
  else
    let koth :=
      if pos.variant = .koth then
        let ksq := pos.kingSq us
        [28, 27, 35, 36].foldl (fun sc c =>
          let dist := sqDistance ksq c +
            popcount (pos.attackersTo c &&& pos.colorBB us.other) +
            popcount (pos.colorBB us &&& squareBB c)
          sc + KothDistanceBonus (min (dist - 1) 5)) SCORE_ZERO
      else SCORE_ZERO
    (bbSquares (pos.pe.passedPawns us)).foldl
      (fun sc s => sc + passedPawnTerm pos st us s) koth

/-- Evaluation::evaluate_space for one color. -/
def evaluate_space (pos : Position) (st : EvalState) (us : Color) : Score :=
  let them := us.other
  let spaceMask :=
    if us = .white then CenterFiles &&& (Rank2BB ||| Rank3BB ||| Rank4BB)
    else CenterFiles &&& (Rank7BB ||| Rank6BB ||| Rank5BB)
  let safe := spaceMask &&& bcompl (pos.pcs us .pawn) &&&
    bcompl ((st.side them).atk .pawn) &&&
    ((st.side us).atk .allPieces ||| bcompl ((st.side them).atk .allPieces))
  let behind := pos.pcs us .pawn
  let behind := behind ||| (if us = .white then behind >>> 8 else shl64 behind 8)
  let behind := behind ||| (if us = .white then behind >>> 16 else shl64 behind 16)
  let bonus := popcount ((if us = .white then shl64 safe 32 else safe >>> 32) |||
    (behind &&& safe))
  let weight : Int := (pos.countAll us : Int) - 2 * pos.pe.openFiles
  if pos.variant = .koth then
    S (Int.tdiv ((bonus : Int) * weight * weight) 22) 0 +
      KothSafeCenter.sc (popcount (safe &&& behind &&& (Rank4BB ||| Rank5BB) &&&
        (FileDBB ||| FileEBB)) : Int)
  else S (Int.tdiv ((bonus : Int) * weight * weight) 16) 0

/-- Evaluation::evaluate_initiative: the global endgame correction. -/
def evaluate_initiative (pos : Position) (eg : Int) : Score :=
  let kingDistance : Int :=
    (fileDistance (pos.kingSq .white) (pos.kingSq .black) : Int) -
      (rankDistance (pos.kingSq .white) (pos.kingSq .black) : Int)
  let bothFlanks :=
    pos.typeBB .pawn &&& QueenSide ≠ 0 ∧ pos.typeBB .pawn &&& KingSide ≠ 0
  let initiative : Int := 8 * (pos.pe.pawnAsymmetry + kingDistance - 17) +
    12 * (pos.countBoth .pawn : Int) + 16 * (if bothFlanks then 1 else 0)
  let v := ((if eg > 0 then 1 else 0) - (if eg < 0 then 1 else 0)) *
    max initiative (-(|eg|))
  S 0 v

/-- Trailing Horde override of evaluate_scale_factor. -/
def hordeScaleFactor (pos : Position) (strongSide : Color) (sf : Int) : Int :=
  if pos.variant = .horde ∧
      pos.nonPawnMaterialOf (if pos.isHordeColor .white then .white else .black) ≥
        QueenValueMg ∧
      ¬ pos.isHordeColor strongSide then 10
  else sf

/-- Evaluation::evaluate_scale_factor: material-table scale factor with the
opposite-bishop and king-in-front-of-pawns special cases (skipped for
Atomic) and the Horde override. -/
def evaluate_scale_factor (pos : Position) (eg : Int) : Int :=
  let strongSide := if eg > 0 then Color.white else Color.black
  let sf := pos.me.scaleFactorOf strongSide
  if pos.variant ≠ .atomic ∧ (sf = SCALE_FACTOR_NORMAL ∨ sf = SCALE_FACTOR_ONEPAWN) then
    if pos.oppositeBishops then
      if pos.nonPawnMaterialOf .white = BishopValueMg ∧
          pos.nonPawnMaterialOf .black = BishopValueMg then
        if moreThanOne (pos.typeBB .pawn) then 31 else 9
      else 46
    else if |eg| ≤ BishopValueEg ∧ (pos.countOf strongSide .pawn : Int) ≤ 2 ∧
        ¬ pos.pawnPassed strongSide.other (pos.kingSq strongSide.other) = true then
      37 + 7 * (pos.countOf strongSide .pawn : Int)
    else hordeScaleFactor pos strongSide sf
  else hordeScaleFactor pos strongSide sf

/-- Seed score of value(): PSQ + material imbalance + contempt + pawns. -/
def seedScore (pos : Position) : Score :=
  pos.psqScore + pos.me.imbalance + pos.contempt + pos.pe.pawnsScore

/-- State and score contribution of the initialize + evaluate_pieces phase
of value(), in source order (White then Black, knights through queens). -/
def piecesPhase (pos : Position) : EvalState × Score :=
  let st := initSide pos .black (initSide pos .white EvalState.start)
  let rWn := evaluate_pieces pos .white .knight st
  let rBn := evaluate_pieces pos .black .knight rWn.1
  let rWb := evaluate_pieces pos .white .bishop rBn.1
  let rBb := evaluate_pieces pos .black .bishop rWb.1
  let rWr := evaluate_pieces pos .white .rook rBb.1
  let rBr := evaluate_pieces pos .black .rook rWr.1
  let rWq := evaluate_pieces pos .white .queen rBr.1
  let rBq := evaluate_pieces pos .black .queen rWq.1
  (rBq.1, (rWn.2 - rBn.2) + (rWb.2 - rBb.2) + (rWr.2 - rBr.2) + (rWq.2 - rBq.2))

/-- The fully accumulated score of value() between the lazy exit and the
final blending: seed score plus pieces, mobility, king, threats, passers,
space and initiative, with the variant gates of the driver. -/
def mainScore (pos : Position) (score0 : Score) : Score :=
  let ph := piecesPhase pos
  let st := ph.1
  let score := score0 + ph.2
  let score := score + (st.side .white).mobilityScore - (st.side .black).mobilityScore
  let score :=
    if pos.variant = .anti ∨ pos.variant = .extinction ∨ pos.variant = .race then score
    else score + evaluate_king pos st .white - evaluate_king pos st .black
  let score := score + evaluate_threats pos st .white - evaluate_threats pos st .black
  let score := score + evaluate_passed_pawns pos st .white -
    evaluate_passed_pawns pos st .black
  let score :=
    if pos.variant = .horde then score
    else if pos.npmTotal ≥ SpaceThreshold pos.variant then
      score + evaluate_space pos st .white - evaluate_space pos st .black
    else score
  if pos.variant = .anti ∨ pos.variant = .horde then score
  else score + evaluate_initiative pos score.eg

/-- The post-lazy part of value(): accumulate mainScore and blend the mg
and eg components by game phase and scale factor, from the side to move's
point of view. -/
def mainEvaluation (pos : Position) (score0 : Score) : Int :=
  let score := mainScore pos score0
  let sf := evaluate_scale_factor pos score.eg
  let v := Int.tdiv
    (score.mg * pos.me.gamePhase +
      Int.tdiv (score.eg * (PHASE_MIDGAME - pos.me.gamePhase) * sf) SCALE_FACTOR_NORMAL)
    PHASE_MIDGAME
  if pos.sideToMove = .white then v else -v

/-- Evaluation::value: variant end, specialized endgame, seed score, lazy
exit (standard chess only), then the main evaluation. -/
def value (pos : Position) : Int :=
  if pos.isVariantEnd then pos.variantResult
  else
    match pos.me.specialized with
    | some sv => sv
    | none =>
      let score0 := seedScore pos
      let v := Int.tdiv (score0.mg + score0.eg) 2
      if pos.variant = .chess ∧ LazyThreshold < |v| then
        if pos.sideToMove = .white then v else -v
      else mainEvaluation pos score0

/-- Claim-side predicate (C4): king safety for c is disabled when the
variant is Anti or Extinction, or the enemy's non-pawn material is below
RookValueMg + KnightValueMg and the variant is not Crazyhouse. -/
def kingSafetyDisabledClaim (pos : Position) (c : Color) : Prop :=
  pos.variant = .anti ∨ pos.variant = .extinction ∨
    (pos.nonPawnMaterialOf c.other < RookValueMg + KnightValueMg ∧
      pos.variant ≠ .crazyhouse)

instance (pos : Position) (c : Color) : Decidable (kingSafetyDisabledClaim pos c) := by
  unfold kingSafetyDisabledClaim; infer_instance

/-- Claim-side activation condition (C7): the king-danger block runs when
the enemy king-ring attackers outnumber 1 minus the enemy queen count. -/
def kingDangerClaimGuard (pos : Position) (st : EvalState) (us : Color) : Bool :=
  decide ((st.side us.other).kingAttackersCount >
    1 - (pos.countOf us.other .queen : Int))

/-- Claim-side king score without the danger block (C7): only shelter,
king tropism and the pawnless-flank penalty contribute. -/
def kingScoreBaseline (pos : Position) (st : EvalState) (us : Color) : Score :=
  let ksq := pos.kingSq us
  let shelter := pos.pe.kingSafety us ksq
  let b := tropismFlankBB pos st us
  let b := (if us = .white then shl64 b 4 else b >>> 4) |||
    (b &&& (st.side us.other).attackedBy2 &&& bcompl ((st.side us).atk .pawn))
  let score := shelter - (CloseEnemies pos.variant).sc (popcount b)
  if pos.typeBB .pawn &&& kingFlank (fileOf ksq) = 0 then score - PawnlessFlank
  else score

/-- Claim-side initiative value (C5): 8·(asymmetry + kingDistance − 17) +
12·pawn count + 16·bothFlanks. -/
def claimInitiative (pos : Position) : Int :=
  8 * (pos.pe.pawnAsymmetry +
      ((fileDistance (pos.kingSq .white) (pos.kingSq .black) : Int) -
        (rankDistance (pos.kingSq .white) (pos.kingSq .black) : Int)) - 17) +
    12 * (pos.countBoth .pawn : Int) +
    16 * (if pos.typeBB .pawn &&& QueenSide ≠ 0 ∧ pos.typeBB .pawn &&& KingSide ≠ 0
      then 1 else 0)

/-- Claim-side halving condition (C8): not a direct passer after one push,
or a pawn of either color somewhere ahead on the pawn's file. -/
def claimHalveCond (pos : Position) (us : Color) (s : Nat) : Prop :=
  ¬ pos.pawnPassed us ((s : Int) + pawnPushDelta us).toNat = true ∨
    pos.typeBB .pawn &&& forwardFileBB us s ≠ 0

instance (pos : Position) (us : Color) (s : Nat) : Decidable (claimHalveCond pos us s) := by
  unfold claimHalveCond; infer_instance

/-- A pawn entry with no pawn information, for concrete test positions. -/
def pawnEntryZero : PawnEntry :=
  { pawnAttacks := fun _ => 0
    pawnAttacksSpan := fun _ => 0
    passedPawns := fun _ => 0
    kingSafety := fun _ _ => SCORE_ZERO
    pawnsScore := SCORE_ZERO
    semiopenFile := fun _ _ => false
    semiopenSide := fun _ _ _ => false
    weakUnopposed := fun _ => 0
    openFiles := 0
    pawnAsymmetry := 0
    pawnsOnSameColorSquares := fun _ _ => 0 }

/-- A material entry with normal scale factor and no specialized endgame. -/
def matEntryBase : MaterialEntry :=
  { imbalance := SCORE_ZERO
    gamePhase := 0
    scaleFactorOf := fun _ => 64
    specialized := none }

/-- A concrete standard-chess position with bare kings on e1 and e8. -/
def basePos : Position :=
  { variant := .chess
    sideToMove := .white
    pcs := fun c pt =>
      match c, pt with
      | .white, .king => squareBB 4
      | .black, .king => squareBB 60
      | _, _ => 0
    kingSq := fun c => match c with | .white => 4 | .black => 60
    canCastle := fun _ => false
    isChess960 := false
    countInHand := fun _ _ => 0
    checksGiven := fun _ => 0
    isHordeColor := fun _ => false
    gridBB := fun _ => 0
    pinnedPieces := fun _ => 0
    sliderBlockersNE := fun _ _ => false
    attackersTo := fun _ => 0
    nonPawnMaterialOf := fun _ => 0
    oppositeBishops := false
    pawnPassed := fun _ _ => false
    isVariantEnd := false
    variantResult := 0
    psqScore := SCORE_ZERO
    contempt := SCORE_ZERO
    me := matEntryBase
    pe := pawnEntryZero }

/-- basePos with a huge seed score, for the lazy-exit witness. -/
def lazyPos : Position := { basePos with psqScore := S 2000 2000 }

/-- Kings on a1 and a8 (maximal rank distance on one file), for the
initiative counterexample. -/
def cornerKingsPos : Position :=
  { basePos with
    pcs := fun c pt =>
      match c, pt with
      | .white, .king => squareBB 0
      | .black, .king => squareBB 56
      | _, _ => 0
    kingSq := fun c => match c with | .white => 0 | .black => 56 }

/-- Opposite-colored-bishop endgame: kings e1/e8, white bishop c1, black
bishop c8, pawns a2 and a7, with one-bishop non-pawn material on both
sides and the normal material scale factor. -/
def oppbPos : Position :=
  { basePos with
    pcs := fun c pt =>
      match c, pt with
      | .white, .king => squareBB 4
      | .black, .king => squareBB 60
      | .white, .bishop => squareBB 2
      | .black, .bishop => squareBB 58
      | .white, .pawn => squareBB 8
      | .black, .pawn => squareBB 48
      | _, _ => 0
    nonPawnMaterialOf := fun _ => BishopValueMg
    oppositeBishops := true }

/-- A Horde position whose horde side (White) has no king (SQ_NONE = 64)
while Black has promoted to two queens: the scenario the source's
multi-queen segfault hack is about. -/
def hordeNoKingPos : Position :=
  { basePos with
    variant := .horde
    pcs := fun c pt =>
      match c, pt with
      | .white, .pawn => squareBB 8 ||| squareBB 9
      | .black, .king => squareBB 60
      | .black, .queen => squareBB 32 ||| squareBB 33
      | _, _ => 0
    kingSq := fun c => match c with | .white => 64 | .black => 60
    isHordeColor := fun c => match c with | .white => true | .black => false
    nonPawnMaterialOf := fun c =>
      match c with | .white => 0 | .black => 2 * QueenValueMg }

/-- An evaluation state in which Black has accumulated two king-ring
attackers of total weight 100, so that the king-danger block would add a
nonzero score if it ran. -/
def hordeAttackSt : EvalState :=
  { w := SideInfo.zero
    b := { SideInfo.zero with kingAttackersCount := 2, kingAttackersWeight := 100 } }

/-- Subset relation on bitboards, stated equationally so that concrete
instances are decidable. -/
def BBsub (a b : Bitboard) : Prop := a ||| b = b

instance (a b : Bitboard) : Decidable (BBsub a b) := by
  unfold BBsub; infer_instance

/-- Union of the six per-piece-type attack sets of one color; claim C3
states that the running ALL_PIECES union equals this. -/
def sixTypeUnion (si : SideInfo) : Bitboard :=
  si.atk .pawn ||| si.atk .knight ||| si.atk .bishop ||| si.atk .rook |||
    si.atk .queen ||| si.atk .king

/-- Union of the attack sets of all pieces of one type of one color, the
total added to the attackedBy slots by one evaluate_pieces call. -/
def attackUnion (pos : Position) (us : Color) (pt : PieceType) : Bitboard :=
  (bbSquares (pos.pcs us pt)).foldl (fun a s => a ||| pieceAttackBB pos us pt s) 0

/-- Union of per-square attack sets over an arbitrary square list, the
generalization of attackUnion used in the loop invariants. -/
def attackUnionL (pos : Position) (us : Color) (pt : PieceType) (l : List Nat) :
    Bitboard :=
  l.foldl (fun a s => a ||| pieceAttackBB pos us pt s) 0

theorem side_upd_self (st : EvalState) (c : Color) (f : SideInfo → SideInfo) :
    (st.upd c f).side c = f (st.side c) := by
  cases c <;> rfl

theorem side_upd_other (st : EvalState) (c : Color) (f : SideInfo → SideInfo) :
    (st.upd c f).side c.other = st.side c.other := by
  cases c <;> rfl

theorem side_upd_of_ne (st : EvalState) {c c' : Color} (h : c' ≠ c)
    (f : SideInfo → SideInfo) : (st.upd c f).side c' = st.side c' := by
  cases c <;> cases c' <;> first | rfl | exact absurd rfl h

theorem other_other (c : Color) : c.other.other = c := by cases c <;> rfl

theorem other_ne (c : Color) : c.other ≠ c := by cases c <;> decide

theorem bb_or_eq_zero {a b : Bitboard} : a ||| b = 0 ↔ a = 0 ∧ b = 0 := by
  constructor
  · intro h
    constructor <;>
      · apply Nat.eq_of_testBit_eq
        intro i
        have hi := congrArg (fun n => Nat.testBit n i) h
        simp only [Nat.testBit_lor, Nat.zero_testBit, Bool.or_eq_false_iff] at hi
        simp [hi.1, hi.2, Nat.zero_testBit]
  · rintro ⟨rfl, rfl⟩
    rfl

theorem bbsub_iff {a b : Bitboard} :
    BBsub a b ↔ ∀ i, a.testBit i = true → b.testBit i = true := by
  constructor
  · intro h i hi
    have := congrArg (fun n => Nat.testBit n i) h
    simp only [Nat.testBit_lor, hi, Bool.true_or] at this
    exact this.symm
  · intro h
    apply Nat.eq_of_testBit_eq
    intro i
    rcases hai : a.testBit i with _ | _
    · simp [Nat.testBit_lor, hai]
    · simp [Nat.testBit_lor, hai, h i hai]

theorem popcountAux_zero (f : Nat) : popcountAux f 0 = 0 := by
  induction f with
  | zero => rfl
  | succ f ih => simp [popcountAux, ih]

theorem popcountAux_succ (f n : Nat) :
    popcountAux (f + 1) n = n % 2 + popcountAux f (n / 2) := rfl

theorem popcountAux_succ_of_lt {f n : Nat} (h : n < 2 ^ f) :
    popcountAux (f + 1) n = popcountAux f n := by
  induction f generalizing n with
  | zero =>
    have hn : n = 0 := by simpa using h
    subst hn
    rfl
  | succ f ih =>
    have hd : n / 2 < 2 ^ f := by
      have h2 : (2 : Nat) ^ (f + 1) = 2 ^ f * 2 := by rw [Nat.pow_succ]
      omega
    rw [popcountAux_succ (f + 1) n, popcountAux_succ f n, ih hd]

theorem popcountAux_of_le {f g n : Nat} (h : n < 2 ^ f) (hfg : f ≤ g) :
    popcountAux g n = popcountAux f n := by
  induction g with
  | zero =>
    have : f = 0 := by omega
    subst this
    rfl
  | succ g ih =>
    rcases Nat.lt_or_ge f (g + 1) with hf | hf
    · have hfg' : f ≤ g := by omega
      have hng : n < 2 ^ g := lt_of_lt_of_le h (Nat.pow_le_pow_right (by omega) hfg')
      rw [popcountAux_succ_of_lt hng, ih hfg']
    · have : f = g + 1 := by omega
      subst this
      rfl

theorem popcountAux_two_mul (f n : Nat) : popcountAux (f + 1) (2 * n) = popcountAux f n := by
  rw [popcountAux_succ]
  have h1 : 2 * n % 2 = 0 := by omega
  have h2 : 2 * n / 2 = n := by omega
  rw [h1, h2]
  omega

theorem popcountAux_eq_zero_iff {f b : Nat} (h : b < 2 ^ f) :
    popcountAux f b = 0 ↔ b = 0 := by
  induction f generalizing b with
  | zero =>
    have : b = 0 := by simpa using h
    subst this
    simp [popcountAux]
  | succ f ih =>
    rw [popcountAux_succ]
    have hd : b / 2 < 2 ^ f := by
      have h2 : (2 : Nat) ^ (f + 1) = 2 ^ f * 2 := by rw [Nat.pow_succ]
      omega
    rw [Nat.add_eq_zero]
    rw [ih hd]
    omega

theorem popcount_double {b : Nat} (hb : b < 2 ^ 63) : popcount (2 * b) = popcount b := by
  have h1 : popcountAux 64 (2 * b) = popcountAux 63 b := popcountAux_two_mul 63 b
  have h2 : popcountAux 64 b = popcountAux 63 b := popcountAux_of_le hb (by omega)
  unfold popcount
  rw [h1, h2]

theorem popcount_mul16 {b : Nat} (hb : b < 2 ^ 60) : popcount (16 * b) = popcount b := by
  have e1 : 16 * b = 2 * (2 * (2 * (2 * b))) := by ring
  have e2 : (2 : Nat) ^ 63 = 8 * 2 ^ 60 := by norm_num
  have l1 : 2 * (2 * (2 * b)) < 2 ^ 63 := by omega
  have l2 : 2 * (2 * b) < 2 ^ 63 := by omega
  have l3 : 2 * b < 2 ^ 63 := by omega
  have l4 : b < 2 ^ 63 := by omega
  calc popcount (16 * b) = popcount (2 * (2 * (2 * (2 * b)))) := by rw [e1]
    _ = popcount (2 * (2 * (2 * b))) := popcount_double l1
    _ = popcount (2 * (2 * b)) := popcount_double l2
    _ = popcount (2 * b) := popcount_double l3
    _ = popcount b := popcount_double l4

theorem popcount_div16 {b : Nat} (h16 : b % 16 = 0) (hb : b < 2 ^ 64) :
    popcount (b >>> 4) = popcount b := by
  have hdiv : b >>> 4 = b / 16 := by
    rw [Nat.shiftRight_eq_div_pow]
  have hb' : b = 16 * (b / 16) := by omega
  have hq : b / 16 < 2 ^ 60 := by
    have e : (2 : Nat) ^ 64 = 16 * 2 ^ 60 := by norm_num
    omega
  rw [hdiv]
  conv_rhs => rw [hb']
  exact (popcount_mul16 hq).symm

theorem land_even_odd (a c : Nat) : (2 * a) &&& (2 * c + 1) = 2 * (a &&& c) := by
  apply Nat.eq_of_testBit_eq
  intro i
  cases i with
  | zero =>
    simp only [Nat.testBit_land, Nat.testBit_zero]
    have h1 : 2 * a % 2 = 0 := by omega
    have h2 : 2 * (a &&& c) % 2 = 0 := by omega
    simp [h1, h2]
  | succ i =>
    rw [Nat.testBit_land]
    simp only [Nat.testBit_succ]
    have h1 : 2 * a / 2 = a := by omega
    have h2 : (2 * c + 1) / 2 = c := by omega
    have h3 : 2 * (a &&& c) / 2 = a &&& c := by omega
    rw [h1, h2, h3, Nat.testBit_land]

theorem land_odd_even (a c : Nat) : (2 * a + 1) &&& (2 * c) = 2 * (a &&& c) := by
  apply Nat.eq_of_testBit_eq
  intro i
  cases i with
  | zero =>
    simp only [Nat.testBit_land, Nat.testBit_zero]
    have h1 : 2 * c % 2 = 0 := by omega
    have h2 : 2 * (a &&& c) % 2 = 0 := by omega
    simp [h1, h2]
  | succ i =>
    rw [Nat.testBit_land]
    simp only [Nat.testBit_succ]
    have h1 : (2 * a + 1) / 2 = a := by omega
    have h2 : 2 * c / 2 = c := by omega
    have h3 : 2 * (a &&& c) / 2 = a &&& c := by omega
    rw [h1, h2, h3, Nat.testBit_land]

theorem land_self_eq (a : Nat) : a &&& a = a := by
  apply Nat.eq_of_testBit_eq
  intro i
  rw [Nat.testBit_land, Bool.and_self]

theorem moreThanOne_aux : ∀ f b, b < 2 ^ f → (b &&& (b - 1) ≠ 0 ↔ 1 < popcountAux f b) := by
  intro f
  induction f with
  | zero =>
    intro b hb
    have : b = 0 := by simpa using hb
    subst this
    simp [popcountAux]
  | succ f ih =>
    intro b hb
    rcases Nat.eq_zero_or_pos b with rfl | hpos
    · simp [popcountAux_zero]
    rcases Nat.even_or_odd b with ⟨k, hk⟩ | ⟨k, hk⟩
    · have hk2 : b = 2 * k := by omega
      subst hk2
      have hkpos : 0 < k := by omega
      have hsub : 2 * k - 1 = 2 * (k - 1) + 1 := by omega
      rw [hsub, land_even_odd]
      have hkf : k < 2 ^ f := by
        have h2 : (2 : Nat) ^ (f + 1) = 2 ^ f * 2 := by rw [Nat.pow_succ]
        omega
      rw [popcountAux_two_mul]
      have := ih k hkf
      omega
    · have hk2 : b = 2 * k + 1 := by omega
      subst hk2
      have hsub : 2 * k + 1 - 1 = 2 * k := by omega
      rw [hsub, land_odd_even, land_self_eq]
      have hkf : k < 2 ^ f := by
        have h2 : (2 : Nat) ^ (f + 1) = 2 ^ f * 2 := by rw [Nat.pow_succ]
        omega
      rw [popcountAux_succ]
      have hmod : (2 * k + 1) % 2 = 1 := by omega
      have hdv : (2 * k + 1) / 2 = k := by omega
      rw [hmod, hdv]
      have hz := popcountAux_eq_zero_iff hkf
      omega

theorem moreThanOne_iff_one_lt_popcount {b : Bitboard} (hb : b < 2 ^ 64) :
    moreThanOne b ↔ 1 < popcount b :=
  moreThanOne_aux 64 b hb

/-- C5 counterexample: with kings on a1 and a8, no pawns and zero pawn
asymmetry the initiative is -192, so at endgame value eg = 1 the correction
is v = -1 and sign(eg + v) = 0 differs from sign eg = 1: the corrected
endgame value does not keep the sign of eg, it only never gets the
opposite sign. -/
theorem initiative_sign_counterexample :
    (1 : Int) ≠ 0 ∧
    (evaluate_initiative cornerKingsPos 1).eg = -1 ∧
    Int.sign (1 + (evaluate_initiative cornerKingsPos 1).eg) ≠ Int.sign 1 := by
  refine ⟨by decide, ?_, ?_⟩ <;> decide

/-- C5 (amended): evaluate_initiative(eg) returns the Score (0, v) with
v = sign(eg) · max(initiative, −|eg|), where initiative =
8·(pawn_asymmetry + kingDistance − 17) + 12·pawn_count + 16·bothFlanks;
and the corrected endgame value eg + v never takes the sign opposite to
eg: it stays ≥ 0 when eg > 0 and ≤ 0 when eg < 0 (it can reach 0). -/
theorem initiative_formula_and_sign (pos : Position) (eg : Int) :
    evaluate_initiative pos eg =
      S 0 (Int.sign eg * max (claimInitiative pos) (-|eg|)) ∧
    (0 < eg → 0 ≤ eg + (evaluate_initiative pos eg).eg) ∧
    (eg < 0 → eg + (evaluate_initiative pos eg).eg ≤ 0) := by
  have hsign : ((if eg > 0 then (1 : Int) else 0) - (if eg < 0 then 1 else 0)) =
      Int.sign eg := by
    rcases lt_trichotomy eg 0 with h | rfl | h
    · rw [Int.sign_eq_neg_one_iff_neg.mpr h, if_neg (by omega), if_pos h]
      omega
    · simp
    · rw [Int.sign_eq_one_iff_pos.mpr h, if_pos h, if_neg (by omega)]
      omega
  refine ⟨?_, ?_, ?_⟩
  · simp only [evaluate_initiative, claimInitiative]
    rw [hsign]
  · intro h
    simp only [evaluate_initiative]
    rw [if_pos h, if_neg (by omega : ¬ eg < 0)]
    have h1 : -|eg| ≤ max (claimInitiative pos) (-|eg|) := le_max_right _ _
    have h2 : |eg| = eg := abs_of_pos h
    simp only [claimInitiative] at h1
    simp only [S]
    omega
  · intro h
    simp only [evaluate_initiative]
    rw [if_neg (by omega : ¬ eg > 0), if_pos h]
    have h1 : -|eg| ≤ max (claimInitiative pos) (-|eg|) := le_max_right _ _
    have h2 : |eg| = -eg := abs_of_neg h
    simp only [claimInitiative] at h1
    simp only [S]
    omega

/-- Witness for the amended C5 theorem at a concrete position and eg = 5. -/
theorem initiative_formula_witness :
    evaluate_initiative basePos 5 =
      S 0 (Int.sign 5 * max (claimInitiative basePos) (-|(5 : Int)|)) ∧
    ((0 : Int) < 5 → (0 : Int) ≤ 5 + (evaluate_initiative basePos 5).eg) ∧
    ((5 : Int) < 0 → 5 + (evaluate_initiative basePos 5).eg ≤ 0) :=
  initiative_formula_and_sign basePos 5

/-- C6: in a non-Atomic position whose material-table scale factor for the
strong side is the normal or one-pawn sentinel and which has
opposite-colored bishops, evaluate_scale_factor returns 9 when both sides
have exactly one bishop of non-pawn material and at most one pawn is on
the board, 31 with more than one pawn, and 46 otherwise. -/
theorem scale_factor_opposite_bishops (pos : Position) (eg : Int)
    (hv : pos.variant ≠ .atomic)
    (hsf : pos.me.scaleFactorOf (if eg > 0 then Color.white else Color.black) =
        SCALE_FACTOR_NORMAL ∨
      pos.me.scaleFactorOf (if eg > 0 then Color.white else Color.black) =
        SCALE_FACTOR_ONEPAWN)
    (hob : pos.oppositeBishops = true)
    (hwf : pos.typeBB .pawn < 2 ^ 64) :
    evaluate_scale_factor pos eg =
      if pos.nonPawnMaterialOf .white = BishopValueMg ∧
          pos.nonPawnMaterialOf .black = BishopValueMg then
        if 1 < popcount (pos.typeBB .pawn) then 31 else 9
      else 46 := by
  simp only [evaluate_scale_factor]
  rw [if_pos ⟨hv, hsf⟩, if_pos hob]
  rw [if_congr Iff.rfl (if_congr (moreThanOne_iff_one_lt_popcount hwf) rfl rfl) rfl]

/-- Witness for C6: the opposite-bishop position with one pawn each (two
pawns on the board) scales to 31, matching the spec's scenario. -/
theorem scale_factor_witness :
    oppbPos.variant ≠ Variant.atomic ∧ oppbPos.oppositeBishops = true ∧
    evaluate_scale_factor oppbPos 100 = 31 := by
  refine ⟨by decide, rfl, ?_⟩
  have h := scale_factor_opposite_bishops oppbPos 100 (by decide) (Or.inl (by decide)) rfl
    (by decide)
  rw [h]
  decide

/-- C2: with no variant end and no specialized endgame, the lazy early
return of value happens exactly when the variant is standard chess and the
blended seed midscore v = (mg + eg)/2 of PSQ + imbalance + contempt +
pawns exceeds LazyThreshold in absolute value; it then returns v for White
to move and -v for Black to move, and in every other case (in particular
for every non-standard variant) value runs the full main evaluation. -/
theorem lazy_exit_characterization (pos : Position)
    (hend : pos.isVariantEnd = false) (hsp : pos.me.specialized = none) :
    (pos.variant = .chess ∧
        LazyThreshold < |Int.tdiv ((seedScore pos).mg + (seedScore pos).eg) 2| →
      value pos = (if pos.sideToMove = .white
        then Int.tdiv ((seedScore pos).mg + (seedScore pos).eg) 2
        else -Int.tdiv ((seedScore pos).mg + (seedScore pos).eg) 2)) ∧
    (¬ (pos.variant = .chess ∧
        LazyThreshold < |Int.tdiv ((seedScore pos).mg + (seedScore pos).eg) 2|) →
      value pos = mainEvaluation pos (seedScore pos)) := by
  unfold value
  rw [hend, hsp]
  simp only [Bool.false_eq_true, if_false]
  constructor
  · intro h
    rw [if_pos h]
  · intro h
    rw [if_neg h]

/-- Witness for C2 at a concrete position whose seed midscore is 2000. -/
theorem lazy_exit_witness :
    lazyPos.isVariantEnd = false ∧ lazyPos.me.specialized = none ∧
    value lazyPos = 2000 := by
  refine ⟨rfl, rfl, ?_⟩
  have h := (lazy_exit_characterization lazyPos rfl rfl).1 ⟨rfl, by decide⟩
  rw [h]
  decide

/-- C1: for every position that reaches the blending step (no variant end,
no specialized endgame, no lazy exit), value returns
v = (mg·phase + eg·(128−phase)·sf/64) / 128 computed in truncated integer
arithmetic from the final accumulated score (mg, eg), the material entry's
game phase and the scale factor from evaluate_scale_factor, as-is for
White to move and negated for Black to move. -/
theorem value_blends_phase_and_scale (pos : Position)
    (hend : pos.isVariantEnd = false) (hsp : pos.me.specialized = none)
    (hlazy : ¬ (pos.variant = .chess ∧
      LazyThreshold < |Int.tdiv ((seedScore pos).mg + (seedScore pos).eg) 2|)) :
    value pos =
      (if pos.sideToMove = .white then
        Int.tdiv ((mainScore pos (seedScore pos)).mg * pos.me.gamePhase +
          Int.tdiv ((mainScore pos (seedScore pos)).eg *
              (PHASE_MIDGAME - pos.me.gamePhase) *
              evaluate_scale_factor pos (mainScore pos (seedScore pos)).eg)
            SCALE_FACTOR_NORMAL) PHASE_MIDGAME
      else
        -Int.tdiv ((mainScore pos (seedScore pos)).mg * pos.me.gamePhase +
          Int.tdiv ((mainScore pos (seedScore pos)).eg *
              (PHASE_MIDGAME - pos.me.gamePhase) *
              evaluate_scale_factor pos (mainScore pos (seedScore pos)).eg)
            SCALE_FACTOR_NORMAL) PHASE_MIDGAME) := by
  have h := (lazy_exit_characterization pos hend hsp).2 hlazy
  rw [h]
  rfl

/-- Witness for C1 at the bare-kings position, where no early exit fires. -/
theorem value_blend_witness :
    basePos.isVariantEnd = false ∧ basePos.me.specialized = none ∧
    ¬ (basePos.variant = .chess ∧
      LazyThreshold < |Int.tdiv ((seedScore basePos).mg + (seedScore basePos).eg) 2|) ∧
    value basePos =
      (if basePos.sideToMove = .white then
        Int.tdiv ((mainScore basePos (seedScore basePos)).mg * basePos.me.gamePhase +
          Int.tdiv ((mainScore basePos (seedScore basePos)).eg *
              (PHASE_MIDGAME - basePos.me.gamePhase) *
              evaluate_scale_factor basePos (mainScore basePos (seedScore basePos)).eg)
            SCALE_FACTOR_NORMAL) PHASE_MIDGAME
      else
        -Int.tdiv ((mainScore basePos (seedScore basePos)).mg * basePos.me.gamePhase +
          Int.tdiv ((mainScore basePos (seedScore basePos)).eg *
              (PHASE_MIDGAME - basePos.me.gamePhase) *
              evaluate_scale_factor basePos (mainScore basePos (seedScore basePos)).eg)
            SCALE_FACTOR_NORMAL) PHASE_MIDGAME) :=
  ⟨rfl, rfl, by decide,
    value_blends_phase_and_scale basePos rfl rfl (by decide)⟩

theorem side_upd_other' (st : EvalState) (c : Color) (f : SideInfo → SideInfo) :
    (st.upd c.other f).side c = st.side c := by
  cases c <;> rfl

theorem kingAttacksBB_ne_zero : ∀ s, s < 64 → kingAttacksBB s ≠ 0 := by decide

/-- C4: after initialize for color c (with a king on the board), the king
ring of c is empty exactly when king safety for c is disabled in the
claim's sense (Anti or Extinction, or enemy non-pawn material below
RookValueMg + KnightValueMg outside Crazyhouse), and whenever it is
disabled the enemy's king-attacker count is reset to zero. -/
theorem king_ring_iff_disabled (pos : Position) (st : EvalState) (c : Color)
    (hk : pos.kingSq c < 64) :
    (((initSide pos c st).side c).kingRing = 0 ↔ kingSafetyDisabledClaim pos c) ∧
    (kingSafetyDisabledClaim pos c →
      ((initSide pos c st).side c.other).kingAttackersCount = 0) := by
  have harith := not_lt (a := pos.nonPawnMaterialOf c.other)
    (b := RookValueMg + KnightValueMg)
  have hae : pos.variant = .crazyhouse → pos.variant ≠ .anti := by
    intro h
    rw [h]
    decide
  have hee : pos.variant = .crazyhouse → pos.variant ≠ .extinction := by
    intro h
    rw [h]
    decide
  have hiff : ((pos.variant ≠ .anti ∧ pos.variant ≠ .extinction ∧
      pos.nonPawnMaterialOf c.other ≥ RookValueMg + KnightValueMg) ∨
      pos.variant = .crazyhouse) ↔ ¬ kingSafetyDisabledClaim pos c := by
    unfold kingSafetyDisabledClaim
    tauto
  by_cases hc : ((pos.variant ≠ .anti ∧ pos.variant ≠ .extinction ∧
      pos.nonPawnMaterialOf c.other ≥ RookValueMg + KnightValueMg) ∨
      pos.variant = .crazyhouse)
  · have hnd : ¬ kingSafetyDisabledClaim pos c := hiff.mp hc
    have hne : ¬ (pos.variant = .anti ∨ pos.variant = .extinction) := by
      rcases hc with ⟨h1, h2, _⟩ | h
      · rintro (h' | h')
        · exact h1 h'
        · exact h2 h'
      · rintro (h' | h')
        · exact hae h h'
        · exact hee h h'
    have hka : initKingAtt pos c = kingAttacksBB (pos.kingSq c) := by
      unfold initKingAtt
      rw [if_neg hne]
    simp only [initSide]
    rw [if_pos hc]
    rw [side_upd_other']
    rw [side_upd_self]
    simp only []
    constructor
    · have hkz : kingAttacksBB (pos.kingSq c) ≠ 0 := kingAttacksBB_ne_zero _ hk
      constructor
      · intro h0
        exfalso
        rw [hka] at h0
        split at h0
        · exact hkz (bb_or_eq_zero.mp h0).1
        · exact hkz h0
      · intro hd
        exact absurd hd hnd
    · intro hd
      exact absurd hd hnd
  · have hd : kingSafetyDisabledClaim pos c := by
      by_contra hnd
      exact hc (hiff.mpr hnd)
    simp only [initSide]
    rw [if_neg hc]
    constructor
    · simp only [side_upd_other', side_upd_self]
      simp [hd]
    · intro _
      simp only [side_upd_self]

/-- Witness for C4 at the bare-kings position, where enemy material is
below the rook + knight threshold, so king safety is disabled. -/
theorem king_ring_witness :
    basePos.kingSq .white < 64 ∧
    ((((initSide basePos .white EvalState.start).side .white).kingRing = 0 ↔
      kingSafetyDisabledClaim basePos .white) ∧
    (kingSafetyDisabledClaim basePos .white →
      ((initSide basePos .white EvalState.start).side Color.white.other).kingAttackersCount
        = 0)) :=
  ⟨by decide, king_ring_iff_disabled basePos EvalState.start .white (by decide)⟩

theorem mask_no_gap4 {M : Bitboard} (hM : M < 2 ^ 64)
    (hb : ∀ i, i < 64 → ¬(M.testBit i = true ∧ M.testBit (i + 4) = true)) :
    ∀ i, ¬(M.testBit i = true ∧ M.testBit (i + 4) = true) := by
  intro i
  by_cases h : i < 64
  · exact hb i h
  · rintro ⟨h1, _⟩
    have hlt : M < 2 ^ i :=
      lt_of_lt_of_le hM (Nat.pow_le_pow_right (by omega) (by omega))
    rw [Nat.testBit_lt_two_pow hlt] at h1
    exact Bool.false_ne_true h1

theorem kingFlank_cases (f : Nat) :
    kingFlank f = QueenSide ∨ kingFlank f = CenterFiles ∨
      kingFlank f = KingSide ∨ kingFlank f = 0 := by
  unfold kingFlank
  rcases f with _ | _ | _ | _ | _ | _ | _ | _ | f <;> simp [List.getD]

theorem kingFlank_no_gap (f : Nat) :
    ∀ i, ¬((kingFlank f).testBit i = true ∧ (kingFlank f).testBit (i + 4) = true) := by
  rcases kingFlank_cases f with h | h | h | h <;> rw [h]
  · exact mask_no_gap4 (by decide) (by decide)
  · exact mask_no_gap4 (by decide) (by decide)
  · exact mask_no_gap4 (by decide) (by decide)
  · intro i
    simp [Nat.zero_testBit]

theorem tropism_bit_flank {pos : Position} {st : EvalState} {us : Color} {i : Nat}
    (h : (tropismFlankBB pos st us).testBit i = true) :
    (kingFlank (fileOf (pos.kingSq us))).testBit i = true ∧
      (campBB us).testBit i = true := by
  unfold tropismFlankBB at h
  simp only [Nat.testBit_land, Bool.and_eq_true] at h
  exact ⟨h.1.2, h.2⟩

theorem tropism_le_camp (pos : Position) (st : EvalState) (us : Color) :
    tropismFlankBB pos st us ≤ campBB us :=
  Nat.and_le_right

theorem camp_mul16_lt (t : Nat) (h : t ≤ 1099511627775) :
    t * 16 < 18446744073709551616 := by omega

theorem camp_lt_pow60 (t : Nat) (h : t ≤ 1099511627775) :
    t < 1152921504606846976 := by omega

theorem le_chain_lt_u64 (t c : Nat) (h1 : t ≤ c) (h2 : c ≤ 18446744073709551615) :
    t < 18446744073709551616 := by omega

/-- C9: in evaluate_king's tropism computation, the enemy-attacked squares
of the king flank inside our camp are disjoint from their own shift by
four bits toward the enemy side, and the shift preserves the popcount, so
both source assertions hold for every evaluation state. -/
theorem tropism_shift_assertions (pos : Position) (st : EvalState) (us : Color) :
    ((if us = .white then shl64 (tropismFlankBB pos st us) 4
      else tropismFlankBB pos st us >>> 4) &&& tropismFlankBB pos st us = 0) ∧
    popcount (if us = .white then shl64 (tropismFlankBB pos st us) 4
      else tropismFlankBB pos st us >>> 4) = popcount (tropismFlankBB pos st us) := by
  cases us with
  | white =>
    simp only [reduceIte]
    have hcamp : campBB Color.white = 1099511627775 := by decide
    have hble : tropismFlankBB pos st Color.white ≤ 1099511627775 := by
      rw [← hcamp]
      exact tropism_le_camp pos st .white
    have hshl : shl64 (tropismFlankBB pos st Color.white) 4 =
        tropismFlankBB pos st Color.white <<< 4 := by
      unfold shl64
      apply Nat.mod_eq_of_lt
      rw [Nat.shiftLeft_eq]
      have h1 : (2 : Nat) ^ 4 = 16 := by norm_num
      have h2 : (2 : Nat) ^ 64 = 18446744073709551616 := by norm_num
      rw [h1, h2]
      exact camp_mul16_lt _ hble
    constructor
    · rw [hshl]
      apply Nat.eq_of_testBit_eq
      intro i
      rw [Nat.testBit_land, Nat.zero_testBit, Nat.testBit_shiftLeft]
      by_cases h4 : 4 ≤ i
      · rcases hbi : (tropismFlankBB pos st Color.white).testBit (i - 4) with _ | _
        · simp [hbi]
        · rcases hbj : (tropismFlankBB pos st Color.white).testBit i with _ | _
          · simp [hbj]
          · exfalso
            have hf1 := (tropism_bit_flank hbi).1
            have hf2 := (tropism_bit_flank hbj).1
            have heq : i - 4 + 4 = i := by omega
            exact kingFlank_no_gap _ (i - 4) ⟨hf1, heq ▸ hf2⟩
      · simp [h4]
    · rw [hshl, Nat.shiftLeft_eq]
      have h1 : (2 : Nat) ^ 4 = 16 := by norm_num
      have h16 : tropismFlankBB pos st Color.white * 2 ^ 4 =
          16 * tropismFlankBB pos st Color.white := by rw [h1]; ring
      rw [h16]
      refine popcount_mul16 ?_
      have h60 : (2 : Nat) ^ 60 = 1152921504606846976 := by norm_num
      rw [h60]
      exact camp_lt_pow60 _ hble
  | black =>
    rw [if_neg (show ¬ (Color.black = Color.white) by decide)]
    constructor
    · apply Nat.eq_of_testBit_eq
      intro i
      rw [Nat.testBit_land, Nat.zero_testBit, Nat.testBit_shiftRight]
      rcases hbi : (tropismFlankBB pos st Color.black).testBit (4 + i) with _ | _
      · simp [hbi]
      · rcases hbj : (tropismFlankBB pos st Color.black).testBit i with _ | _
        · simp [hbj]
        · exfalso
          have hf1 := (tropism_bit_flank hbi).1
          have hf2 := (tropism_bit_flank hbj).1
          have heq : i + 4 = 4 + i := by omega
          exact kingFlank_no_gap _ i ⟨hf2, heq ▸ hf1⟩
    · have hmod : tropismFlankBB pos st Color.black % 16 = 0 := by
        have hlow : ∀ i, i < 4 → (campBB Color.black).testBit i = false := by decide
        have h16 : (16 : Nat) = 2 ^ 4 := by norm_num
        rw [h16]
        apply Nat.eq_of_testBit_eq
        intro i
        rw [Nat.testBit_mod_two_pow, Nat.zero_testBit]
        by_cases hi : i < 4
        · rcases hbi : (tropismFlankBB pos st Color.black).testBit i with _ | _
          · simp [hbi]
          · have hcb := (tropism_bit_flank hbi).2
            rw [hlow i hi] at hcb
            exact absurd hcb Bool.false_ne_true
        · simp [hi]
      have hlt : tropismFlankBB pos st Color.black < 2 ^ 64 := by
        have h1 : campBB Color.black ≤ 18446744073709551615 := by decide
        have h2 := tropism_le_camp pos st .black
        have h3 : (2 : Nat) ^ 64 = 18446744073709551616 := by norm_num
        rw [h3]
        exact le_chain_lt_u64 _ _ h2 h1
      exact popcount_div16 hmod hlt

theorem bbsub_zero (a : Bitboard) : BBsub 0 a := Nat.zero_or a

theorem bbsub_or_right (a b : Bitboard) : BBsub a (b ||| a) := by
  unfold BBsub
  rw [Nat.lor_comm b a, ← Nat.lor_assoc, Nat.or_self]

theorem lor_absorb_of_bbsub {a b : Bitboard} (h : BBsub a b) : b ||| a = b := by
  rw [Nat.lor_comm]
  exact h

theorem foldl_lor_shift (f : Nat → Bitboard) (l : List Nat) (a : Bitboard) :
    l.foldl (fun acc s => acc ||| f s) a = a ||| l.foldl (fun acc s => acc ||| f s) 0 := by
  induction l generalizing a with
  | nil => simp [Nat.or_zero]
  | cons s l ih =>
    show l.foldl _ (a ||| f s) = a ||| l.foldl _ (0 ||| f s)
    rw [ih (a ||| f s), ih (0 ||| f s), Nat.zero_or, Nat.lor_assoc]

theorem attackUnionL_cons (pos : Position) (us : Color) (pt : PieceType)
    (s : Nat) (l : List Nat) :
    attackUnionL pos us pt (s :: l) =
      pieceAttackBB pos us pt s ||| attackUnionL pos us pt l := by
  unfold attackUnionL
  show l.foldl _ (0 ||| pieceAttackBB pos us pt s) = _
  rw [Nat.zero_or, foldl_lor_shift]

theorem pieceStep_fst (pos : Position) (us : Color) (pt : PieceType)
    (acc : EvalState × Score) (s : Nat) :
    (pieceStep pos us pt acc s).1 = pieceStateStep pos us pt acc.1 s := rfl

theorem pieceStateStep_side_other (pos : Position) (us : Color) (pt : PieceType)
    (st : EvalState) (s : Nat) :
    (pieceStateStep pos us pt st s).side us.other = st.side us.other := by
  simp only [pieceStateStep]
  split <;> split <;> simp [side_upd_other]

theorem pieceStateStep_atk_of_ne (pos : Position) (us : Color) (pt : PieceType)
    (st : EvalState) (s : Nat) (i : PieceType) (hi : i ≠ pt)
    (hall : i ≠ .allPieces) (hqd : i ≠ .queenDiagonal) :
    ((pieceStateStep pos us pt st s).side us).atk i = ((st.side us).atk i) := by
  simp only [pieceStateStep]
  split <;> split <;> simp [side_upd_self, setAtk, hi, hall, hqd]

theorem pieceStateStep_atk_pt (pos : Position) (us : Color) (pt : PieceType)
    (st : EvalState) (s : Nat) (hall : pt ≠ .allPieces) (hqd : pt ≠ .queenDiagonal) :
    ((pieceStateStep pos us pt st s).side us).atk pt =
      (st.side us).atk pt ||| pieceAttackBB pos us pt s := by
  simp only [pieceStateStep]
  split <;> split <;> simp [side_upd_self, setAtk, hall, hqd]

theorem pieceStateStep_atk_all (pos : Position) (us : Color) (pt : PieceType)
    (st : EvalState) (s : Nat) :
    ((pieceStateStep pos us pt st s).side us).atk .allPieces =
      (st.side us).atk .allPieces |||
        ((st.side us).atk pt ||| pieceAttackBB pos us pt s) := by
  simp only [pieceStateStep]
  split <;> split <;> simp [side_upd_self, setAtk]

theorem pieceStateStep_a2 (pos : Position) (us : Color) (pt : PieceType)
    (st : EvalState) (s : Nat) :
    ((pieceStateStep pos us pt st s).side us).attackedBy2 =
      (st.side us).attackedBy2 |||
        ((st.side us).atk .allPieces &&& pieceAttackBB pos us pt s) := by
  simp only [pieceStateStep]
  split <;> split <;> simp [side_upd_self, setAtk]

theorem pieces_fold_spec (pos : Position) (us : Color) (pt : PieceType)
    (hall : pt ≠ .allPieces) (hqd : pt ≠ .queenDiagonal) :
    ∀ (l : List Nat) (acc : EvalState × Score),
      BBsub ((acc.1.side us).atk pt) ((acc.1.side us).atk .allPieces) →
      ((l.foldl (pieceStep pos us pt) acc).1.side us).atk pt =
          (acc.1.side us).atk pt ||| attackUnionL pos us pt l ∧
        ((l.foldl (pieceStep pos us pt) acc).1.side us).atk .allPieces =
          (acc.1.side us).atk .allPieces ||| attackUnionL pos us pt l ∧
        (∀ i, i ≠ pt → i ≠ .allPieces → i ≠ .queenDiagonal →
          ((l.foldl (pieceStep pos us pt) acc).1.side us).atk i =
            (acc.1.side us).atk i) ∧
        ((l.foldl (pieceStep pos us pt) acc).1.side us.other = acc.1.side us.other) := by
  intro l
  induction l with
  | nil =>
    intro acc _
    refine ⟨?_, ?_, fun i _ _ _ => rfl, rfl⟩ <;>
      simp [attackUnionL, Nat.or_zero]
  | cons s l ih =>
    intro acc hsub
    have hstep1 := pieceStateStep_atk_pt pos us pt acc.1 s hall hqd
    have hstep2 := pieceStateStep_atk_all pos us pt acc.1 s
    have hstep3 := fun i hi h1 h2 =>
      pieceStateStep_atk_of_ne pos us pt acc.1 s i hi h1 h2
    have hstep4 := pieceStateStep_side_other pos us pt acc.1 s
    have habs : (acc.1.side us).atk .allPieces ||| (acc.1.side us).atk pt =
        (acc.1.side us).atk .allPieces := lor_absorb_of_bbsub hsub
    have hall' : ((pieceStep pos us pt acc s).1.side us).atk .allPieces =
        (acc.1.side us).atk .allPieces ||| pieceAttackBB pos us pt s := by
      rw [pieceStep_fst, hstep2, ← Nat.lor_assoc, habs]
    have hpt' : ((pieceStep pos us pt acc s).1.side us).atk pt =
        (acc.1.side us).atk pt ||| pieceAttackBB pos us pt s := by
      rw [pieceStep_fst, hstep1]
    have hsub' : BBsub (((pieceStep pos us pt acc s).1.side us).atk pt)
        (((pieceStep pos us pt acc s).1.side us).atk .allPieces) := by
      rw [hall', hpt']
      unfold BBsub
      unfold BBsub at hsub
      apply Nat.eq_of_testBit_eq
      intro i
      have hs := congrArg (fun n => Nat.testBit n i) hsub
      simp only [Nat.testBit_lor] at hs ⊢
      rw [Bool.eq_iff_iff] at hs ⊢
      simp only [Bool.or_eq_true] at hs ⊢
      tauto
    obtain ⟨ih1, ih2, ih3, ih4⟩ := ih (pieceStep pos us pt acc s) hsub'
    refine ⟨?_, ?_, ?_, ?_⟩
    · show ((l.foldl (pieceStep pos us pt) (pieceStep pos us pt acc s)).1.side us).atk pt = _
      rw [ih1, hpt', attackUnionL_cons, Nat.lor_assoc]
    · show ((l.foldl (pieceStep pos us pt) (pieceStep pos us pt acc s)).1.side us).atk
        .allPieces = _
      rw [ih2, hall', attackUnionL_cons, Nat.lor_assoc]
    · intro i hi h1 h2
      show ((l.foldl (pieceStep pos us pt) (pieceStep pos us pt acc s)).1.side us).atk i = _
      rw [ih3 i hi h1 h2, pieceStep_fst, hstep3 i hi h1 h2]
    · show (l.foldl (pieceStep pos us pt) (pieceStep pos us pt acc s)).1.side us.other = _
      rw [ih4, pieceStep_fst, hstep4]

theorem evaluate_pieces_spec (pos : Position) (us : Color) (pt : PieceType)
    (st : EvalState) (hall : pt ≠ .allPieces) (hqd : pt ≠ .queenDiagonal) :
    ((evaluate_pieces pos us pt st).1.side us).atk pt = attackUnion pos us pt ∧
      ((evaluate_pieces pos us pt st).1.side us).atk .allPieces =
        (st.side us).atk .allPieces ||| attackUnion pos us pt ∧
      (∀ i, i ≠ pt → i ≠ .allPieces → i ≠ .queenDiagonal →
        ((evaluate_pieces pos us pt st).1.side us).atk i = (st.side us).atk i) ∧
      ((evaluate_pieces pos us pt st).1.side us.other = st.side us.other) := by
  simp only [evaluate_pieces]
  set st1 := st.upd us (fun si => { si with atk := setAtk si.atk pt 0 }) with hst1
  set st2 := (if pt = .queen then
    st1.upd us (fun si => { si with atk := setAtk si.atk .queenDiagonal 0 })
    else st1) with hst2
  have h2pt : (st2.side us).atk pt = 0 := by
    rw [hst2]
    split
    · rw [side_upd_self, hst1, side_upd_self]
      simp [setAtk, hqd]
    · rw [hst1, side_upd_self]
      simp [setAtk]
  have h2all : (st2.side us).atk .allPieces = (st.side us).atk .allPieces := by
    rw [hst2]
    split
    · rw [side_upd_self, hst1, side_upd_self]
      simp [setAtk, Ne.symm hall]
    · rw [hst1, side_upd_self]
      simp [setAtk, Ne.symm hall]
  have h2i : ∀ i, i ≠ pt → i ≠ .queenDiagonal → (st2.side us).atk i = (st.side us).atk i := by
    intro i hi hiq
    rw [hst2]
    split
    · rw [side_upd_self, hst1, side_upd_self]
      simp [setAtk, hi, hiq]
    · rw [hst1, side_upd_self]
      simp [setAtk, hi]
  have h2other : st2.side us.other = st.side us.other := by
    rw [hst2]
    split
    · rw [side_upd_other, hst1, side_upd_other]
    · rw [hst1, side_upd_other]
  have hsub : BBsub ((st2.side us).atk pt) ((st2.side us).atk .allPieces) := by
    rw [h2pt]
    exact bbsub_zero _
  obtain ⟨f1, f2, f3, f4⟩ := pieces_fold_spec pos us pt hall hqd
    (bbSquares (pos.pcs us pt)) (st2, SCORE_ZERO) hsub
  refine ⟨?_, ?_, ?_, ?_⟩
  · rw [f1]
    show (st2.side us).atk pt ||| attackUnionL pos us pt (bbSquares (pos.pcs us pt)) = _
    rw [h2pt, Nat.zero_or]
    rfl
  · rw [f2]
    show (st2.side us).atk .allPieces ||| _ = _
    rw [h2all]
    rfl
  · intro i hi h1 h2
    rw [f3 i hi h1 h2]
    exact h2i i hi h2
  · rw [f4]
    exact h2other

theorem initSide_atk (pos : Position) (c : Color) (st : EvalState) (i : PieceType) :
    ((initSide pos c st).side c).atk i =
      if i = .allPieces then initKingAtt pos c ||| pos.pe.pawnAttacks c
      else if i = .pawn then pos.pe.pawnAttacks c
      else if i = .king then initKingAtt pos c
      else (st.side c).atk i := by
  simp only [initSide]
  split <;> simp [side_upd_self, side_upd_other', setAtk]

theorem initSide_a2 (pos : Position) (c : Color) (st : EvalState) :
    ((initSide pos c st).side c).attackedBy2 =
      initKingAtt pos c &&& pos.pe.pawnAttacks c := by
  simp only [initSide]
  split <;> simp [side_upd_self, side_upd_other', setAtk]

theorem initSide_atk_other (pos : Position) (c : Color) (st : EvalState) :
    ((initSide pos c st).side c.other).atk = (st.side c.other).atk := by
  simp only [initSide]
  split <;> simp [side_upd_self, side_upd_other]

theorem initSide_a2_other (pos : Position) (c : Color) (st : EvalState) :
    ((initSide pos c st).side c.other).attackedBy2 =
      (st.side c.other).attackedBy2 := by
  simp only [initSide]
  split <;> simp [side_upd_self, side_upd_other]

theorem lor6_rearrange (k p n bp r q : Bitboard) :
    ((((k ||| p) ||| n) ||| bp) ||| r) ||| q = p ||| n ||| bp ||| r ||| q ||| k := by
  apply Nat.eq_of_testBit_eq
  intro i
  simp only [Nat.testBit_lor]
  rw [Bool.eq_iff_iff]
  simp only [Bool.or_eq_true]
  tauto

/-- C3: for each color, after initialize and the four evaluate_pieces
calls of the driver (knights through queens, both colors interleaved), the
running ALL_PIECES attack bitboard equals the union of the per-piece-type
attack bitboards for pawn, knight, bishop, rook, queen and king. -/
theorem attackedBy_all_is_union (pos : Position) (c : Color) :
    ((piecesPhase pos).1.side c).atk .allPieces =
      sixTypeUnion ((piecesPhase pos).1.side c) := by
  set st0 := EvalState.start with hst0
  set stW := initSide pos .white st0 with hstW
  set stB := initSide pos .black stW with hstB
  set r1 := evaluate_pieces pos .white .knight stB with h1
  set r2 := evaluate_pieces pos .black .knight r1.1 with h2
  set r3 := evaluate_pieces pos .white .bishop r2.1 with h3
  set r4 := evaluate_pieces pos .black .bishop r3.1 with h4
  set r5 := evaluate_pieces pos .white .rook r4.1 with h5
  set r6 := evaluate_pieces pos .black .rook r5.1 with h6
  set r7 := evaluate_pieces pos .white .queen r6.1 with h7
  set r8 := evaluate_pieces pos .black .queen r7.1 with h8
  have hphase : (piecesPhase pos).1 = r8.1 := rfl
  rw [hphase]
  obtain ⟨a1, b1, c1, d1⟩ :=
    evaluate_pieces_spec pos .white .knight stB (by decide) (by decide)
  obtain ⟨a2, b2, c2, d2⟩ :=
    evaluate_pieces_spec pos .black .knight r1.1 (by decide) (by decide)
  obtain ⟨a3, b3, c3, d3⟩ :=
    evaluate_pieces_spec pos .white .bishop r2.1 (by decide) (by decide)
  obtain ⟨a4, b4, c4, d4⟩ :=
    evaluate_pieces_spec pos .black .bishop r3.1 (by decide) (by decide)
  obtain ⟨a5, b5, c5, d5⟩ :=
    evaluate_pieces_spec pos .white .rook r4.1 (by decide) (by decide)
  obtain ⟨a6, b6, c6, d6⟩ :=
    evaluate_pieces_spec pos .black .rook r5.1 (by decide) (by decide)
  obtain ⟨a7, b7, c7, d7⟩ :=
    evaluate_pieces_spec pos .white .queen r6.1 (by decide) (by decide)
  obtain ⟨a8, b8, c8, d8⟩ :=
    evaluate_pieces_spec pos .black .queen r7.1 (by decide) (by decide)
  simp only [Color.other] at d1 d2 d3 d4 d5 d6 d7 d8
  have hBatkW : (stB.side .white).atk = (stW.side .white).atk := by
    rw [hstB]
    exact initSide_atk_other pos .black stW
  have hWatkB : (stW.side .black).atk = (st0.side .black).atk := by
    rw [hstW]
    exact initSide_atk_other pos .white st0
  cases c with
  | white =>
    have hall : (r8.1.side Color.white).atk .allPieces =
        ((((initKingAtt pos .white ||| pos.pe.pawnAttacks .white) |||
          attackUnion pos .white .knight) ||| attackUnion pos .white .bishop) |||
          attackUnion pos .white .rook) ||| attackUnion pos .white .queen := by
      rw [d8, b7, d6, b5, d4, b3, d2, b1, hBatkW, hstW, initSide_atk]
      simp
    have hpawn : (r8.1.side Color.white).atk .pawn = pos.pe.pawnAttacks .white := by
      rw [d8, c7 _ (by decide) (by decide) (by decide),
        d6, c5 _ (by decide) (by decide) (by decide),
        d4, c3 _ (by decide) (by decide) (by decide),
        d2, c1 _ (by decide) (by decide) (by decide), hBatkW, hstW, initSide_atk]
      simp
    have hking : (r8.1.side Color.white).atk .king = initKingAtt pos .white := by
      rw [d8, c7 _ (by decide) (by decide) (by decide),
        d6, c5 _ (by decide) (by decide) (by decide),
        d4, c3 _ (by decide) (by decide) (by decide),
        d2, c1 _ (by decide) (by decide) (by decide), hBatkW, hstW, initSide_atk]
      simp
    have hknight : (r8.1.side Color.white).atk .knight = attackUnion pos .white .knight := by
      rw [d8, c7 _ (by decide) (by decide) (by decide),
        d6, c5 _ (by decide) (by decide) (by decide),
        d4, c3 _ (by decide) (by decide) (by decide), d2, a1]
    have hbishop : (r8.1.side Color.white).atk .bishop = attackUnion pos .white .bishop := by
      rw [d8, c7 _ (by decide) (by decide) (by decide),
        d6, c5 _ (by decide) (by decide) (by decide), d4, a3]
    have hrook : (r8.1.side Color.white).atk .rook = attackUnion pos .white .rook := by
      rw [d8, c7 _ (by decide) (by decide) (by decide), d6, a5]
    have hqueen : (r8.1.side Color.white).atk .queen = attackUnion pos .white .queen := by
      rw [d8, a7]
    unfold sixTypeUnion
    rw [hall, hpawn, hking, hknight, hbishop, hrook, hqueen]
    exact lor6_rearrange _ _ _ _ _ _
  | black =>
    have hall : (r8.1.side Color.black).atk .allPieces =
        ((((initKingAtt pos .black ||| pos.pe.pawnAttacks .black) |||
          attackUnion pos .black .knight) ||| attackUnion pos .black .bishop) |||
          attackUnion pos .black .rook) ||| attackUnion pos .black .queen := by
      rw [b8, d7, b6, d5, b4, d3, b2, d1, hstB, initSide_atk]
      simp
    have hpawn : (r8.1.side Color.black).atk .pawn = pos.pe.pawnAttacks .black := by
      rw [c8 _ (by decide) (by decide) (by decide), d7,
        c6 _ (by decide) (by decide) (by decide), d5,
        c4 _ (by decide) (by decide) (by decide), d3,
        c2 _ (by decide) (by decide) (by decide), d1, hstB, initSide_atk]
      simp
    have hking : (r8.1.side Color.black).atk .king = initKingAtt pos .black := by
      rw [c8 _ (by decide) (by decide) (by decide), d7,
        c6 _ (by decide) (by decide) (by decide), d5,
        c4 _ (by decide) (by decide) (by decide), d3,
        c2 _ (by decide) (by decide) (by decide), d1, hstB, initSide_atk]
      simp
    have hknight : (r8.1.side Color.black).atk .knight = attackUnion pos .black .knight := by
      rw [c8 _ (by decide) (by decide) (by decide), d7,
        c6 _ (by decide) (by decide) (by decide), d5,
        c4 _ (by decide) (by decide) (by decide), d3, a2]
    have hbishop : (r8.1.side Color.black).atk .bishop = attackUnion pos .black .bishop := by
      rw [c8 _ (by decide) (by decide) (by decide), d7,
        c6 _ (by decide) (by decide) (by decide), d5, a4]
    have hrook : (r8.1.side Color.black).atk .rook = attackUnion pos .black .rook := by
      rw [c8 _ (by decide) (by decide) (by decide), d7, a6]
    have hqueen : (r8.1.side Color.black).atk .queen = attackUnion pos .black .queen := by
      rw [a8]
    unfold sixTypeUnion
    rw [hall, hpawn, hking, hknight, hbishop, hrook, hqueen]
    exact lor6_rearrange _ _ _ _ _ _

theorem bbsub_land_lor (a b : Bitboard) : BBsub (a &&& b) (a ||| b) := by
  unfold BBsub
  apply Nat.eq_of_testBit_eq
  intro i
  simp only [Nat.testBit_lor, Nat.testBit_land]
  rw [Bool.eq_iff_iff]
  simp only [Bool.or_eq_true, Bool.and_eq_true]
  tauto

theorem bbsub_merge {a2 all : Bitboard} (atkpt b : Bitboard) (h : BBsub a2 all) :
    BBsub (a2 ||| (all &&& b)) (all ||| (atkpt ||| b)) := by
  unfold BBsub at h ⊢
  apply Nat.eq_of_testBit_eq
  intro i
  have hs := congrArg (fun n => Nat.testBit n i) h
  simp only [Nat.testBit_lor, Nat.testBit_land] at hs ⊢
  rw [Bool.eq_iff_iff] at hs ⊢
  simp only [Bool.or_eq_true, Bool.and_eq_true] at hs ⊢
  tauto

theorem pieces_fold_a2_sub (pos : Position) (us : Color) (pt : PieceType) :
    ∀ (l : List Nat) (acc : EvalState × Score),
      BBsub ((acc.1.side us).attackedBy2) ((acc.1.side us).atk .allPieces) →
      BBsub (((l.foldl (pieceStep pos us pt) acc).1.side us).attackedBy2)
        (((l.foldl (pieceStep pos us pt) acc).1.side us).atk .allPieces) := by
  intro l
  induction l with
  | nil => intro acc h; exact h
  | cons s l ih =>
    intro acc h
    show BBsub
      (((l.foldl (pieceStep pos us pt) (pieceStep pos us pt acc s)).1.side us).attackedBy2)
      (((l.foldl (pieceStep pos us pt) (pieceStep pos us pt acc s)).1.side us).atk .allPieces)
    apply ih
    rw [pieceStep_fst, pieceStateStep_a2, pieceStateStep_atk_all]
    exact bbsub_merge _ _ h

theorem pieces_fold_side_other (pos : Position) (us : Color) (pt : PieceType) :
    ∀ (l : List Nat) (acc : EvalState × Score),
      (l.foldl (pieceStep pos us pt) acc).1.side us.other = acc.1.side us.other := by
  intro l
  induction l with
  | nil => intro acc; rfl
  | cons s l ih =>
    intro acc
    show (l.foldl (pieceStep pos us pt) (pieceStep pos us pt acc s)).1.side us.other = _
    rw [ih, pieceStep_fst, pieceStateStep_side_other]

theorem evaluate_pieces_side_other (pos : Position) (us : Color) (pt : PieceType)
    (st : EvalState) :
    (evaluate_pieces pos us pt st).1.side us.other = st.side us.other := by
  simp only [evaluate_pieces]
  rw [pieces_fold_side_other]
  split <;> simp [side_upd_other]

theorem eq_other_of_ne {c us : Color} (h : c ≠ us) : us.other = c := by
  cases c <;> cases us <;> simp_all [Color.other]

theorem evaluate_pieces_a2_sub (pos : Position) (us : Color) (pt : PieceType)
    (st : EvalState) (hall : pt ≠ .allPieces) (c : Color)
    (h : BBsub ((st.side c).attackedBy2) ((st.side c).atk .allPieces)) :
    BBsub (((evaluate_pieces pos us pt st).1.side c).attackedBy2)
      (((evaluate_pieces pos us pt st).1.side c).atk .allPieces) := by
  by_cases hc : c = us
  · subst hc
    simp only [evaluate_pieces]
    set st1 := st.upd c (fun si => { si with atk := setAtk si.atk pt 0 }) with hst1
    set st2 := (if pt = .queen then
      st1.upd c (fun si => { si with atk := setAtk si.atk .queenDiagonal 0 })
      else st1) with hst2
    have h2a2 : (st2.side c).attackedBy2 = (st.side c).attackedBy2 := by
      rw [hst2]
      split
      · rw [side_upd_self, hst1, side_upd_self]
      · rw [hst1, side_upd_self]
    have h2all : (st2.side c).atk .allPieces = (st.side c).atk .allPieces := by
      rw [hst2]
      split
      · rw [side_upd_self, hst1, side_upd_self]
        simp [setAtk, Ne.symm hall]
      · rw [hst1, side_upd_self]
        simp [setAtk, Ne.symm hall]
    apply pieces_fold_a2_sub
    show BBsub ((st2.side c).attackedBy2) ((st2.side c).atk .allPieces)
    rw [h2a2, h2all]
    exact h
  · have hco : us.other = c := eq_other_of_ne hc
    rw [← hco, evaluate_pieces_side_other, hco]
    exact h

/-- C10: for each color c, attackedBy2[c] stays a subset of
attackedBy[c][ALL_PIECES]: the seed laid by initialize is the intersection
of king and pawn attacks against their union, every evaluate_pieces call
preserves the inclusion (each merge step only adds squares that are
simultaneously added to or already in the all-pieces board), and so the
inclusion holds at the end of the piece phase. -/
theorem attackedBy2_subset_all (pos : Position) :
    (∀ (c : Color) (st : EvalState),
      BBsub (((initSide pos c st).side c).attackedBy2)
        (((initSide pos c st).side c).atk .allPieces)) ∧
    (∀ (us c : Color) (pt : PieceType) (st : EvalState), pt ≠ .allPieces →
      BBsub ((st.side c).attackedBy2) ((st.side c).atk .allPieces) →
      BBsub (((evaluate_pieces pos us pt st).1.side c).attackedBy2)
        (((evaluate_pieces pos us pt st).1.side c).atk .allPieces)) ∧
    (∀ c : Color,
      BBsub (((piecesPhase pos).1.side c).attackedBy2)
        (((piecesPhase pos).1.side c).atk .allPieces)) := by
  have hinit : ∀ (c : Color) (st : EvalState),
      BBsub (((initSide pos c st).side c).attackedBy2)
        (((initSide pos c st).side c).atk .allPieces) := by
    intro c st
    rw [initSide_a2, initSide_atk]
    rw [if_pos rfl]
    exact bbsub_land_lor _ _
  refine ⟨hinit, fun us c pt st h1 h2 => evaluate_pieces_a2_sub pos us pt st h1 c h2, ?_⟩
  intro c
  set st0 := EvalState.start with hst0
  set stW := initSide pos .white st0 with hstW
  set stB := initSide pos .black stW with hstB
  set r1 := evaluate_pieces pos .white .knight stB with h1
  set r2 := evaluate_pieces pos .black .knight r1.1 with h2
  set r3 := evaluate_pieces pos .white .bishop r2.1 with h3
  set r4 := evaluate_pieces pos .black .bishop r3.1 with h4
  set r5 := evaluate_pieces pos .white .rook r4.1 with h5
  set r6 := evaluate_pieces pos .black .rook r5.1 with h6
  set r7 := evaluate_pieces pos .white .queen r6.1 with h7
  set r8 := evaluate_pieces pos .black .queen r7.1 with h8
  have hphase : (piecesPhase pos).1 = r8.1 := rfl
  rw [hphase]
  have hB : BBsub ((stB.side c).attackedBy2) ((stB.side c).atk .allPieces) := by
    cases c with
    | black =>
      rw [hstB]
      exact hinit .black stW
    | white =>
      have ha := initSide_a2_other pos .black stW
      have hk := initSide_atk_other pos .black stW
      simp only [Color.other] at ha hk
      rw [hstB, ha, hk, hstW]
      exact hinit .white st0
  have e1 := evaluate_pieces_a2_sub pos .white .knight stB (by decide) c hB
  have e2 := evaluate_pieces_a2_sub pos .black .knight r1.1 (by decide) c e1
  have e3 := evaluate_pieces_a2_sub pos .white .bishop r2.1 (by decide) c e2
  have e4 := evaluate_pieces_a2_sub pos .black .bishop r3.1 (by decide) c e3
  have e5 := evaluate_pieces_a2_sub pos .white .rook r4.1 (by decide) c e4
  have e6 := evaluate_pieces_a2_sub pos .black .rook r5.1 (by decide) c e5
  have e7 := evaluate_pieces_a2_sub pos .white .queen r6.1 (by decide) c e6
  have e8 := evaluate_pieces_a2_sub pos .black .queen r7.1 (by decide) c e7
  exact e8

/-- Closed witness for C10: the preservation clause applied at a concrete
position and the empty starting state. -/
theorem attackedBy2_subset_all_witness :
    BBsub (((evaluate_pieces basePos .white .knight EvalState.start).1.side .white).attackedBy2)
      (((evaluate_pieces basePos .white .knight EvalState.start).1.side .white).atk
        .allPieces) :=
  (attackedBy2_subset_all basePos).2.1 .white .white .knight EvalState.start
    (by decide) (by decide)

theorem Score.sub_add_right (a b c : Score) : (a + c) - b = (a - b) + c := by
  cases a with | mk amg aeg =>
  cases b with | mk bmg beg =>
  cases c with | mk cmg ceg =>
  show Score.mk (amg + cmg - bmg) (aeg + ceg - beg) =
    Score.mk (amg - bmg + cmg) (aeg - beg + ceg)
  refine congrArg₂ Score.mk ?_ ?_ <;> omega

theorem Score.add_score_zero (a : Score) : a + SCORE_ZERO = a := by
  cases a with | mk amg aeg =>
  show Score.mk (amg + 0) (aeg + 0) = Score.mk amg aeg
  refine congrArg₂ Score.mk ?_ ?_ <;> omega

/-- C7 (amended): the king-danger block of evaluate_king runs exactly when
kingAttackersCount[Them] > 1 − (enemy queens) AND NOT (the variant is Horde
and our king square is SQ_NONE); the returned score is the baseline
(shelter, tropism, pawnless flank) plus the danger delta exactly when that
guard holds. -/
theorem king_danger_activation (pos : Position) (st : EvalState) (us : Color) :
    kingDangerGuard pos st us =
      (kingDangerClaimGuard pos st us &&
        !(decide (pos.variant = .horde) && decide (pos.kingSq us = 64))) ∧
    evaluate_king pos st us =
      kingScoreBaseline pos st us +
        (if kingDangerGuard pos st us then
          kingDangerDelta pos st us (pos.pe.kingSafety us (pos.kingSq us))
        else SCORE_ZERO) := by
  refine ⟨rfl, ?_⟩
  simp only [evaluate_king, kingScoreBaseline]
  by_cases hg : kingDangerGuard pos st us = true
  · rw [if_pos hg, if_pos hg]
    by_cases hp : pos.typeBB .pawn &&& kingFlank (fileOf (pos.kingSq us)) = 0
    · rw [if_pos hp, if_pos hp, Score.sub_add_right, Score.sub_add_right]
    · rw [if_neg hp, if_neg hp, Score.sub_add_right]
  · rw [if_neg hg, if_neg hg, Score.add_score_zero]

/-- Counterexample to C7 as stated: in a Horde position whose horde side
has no king but faces two enemy queens and two accumulated king-ring
attackers, the claimed activation condition holds, yet the source skips
the king-danger block (its extra Horde SQ_NONE guard fails), so only
shelter, tropism and the pawnless-flank penalty contribute, and the score
differs from what the claimed activation would produce. -/
theorem king_danger_guard_counterexample :
    kingDangerClaimGuard hordeNoKingPos hordeAttackSt .white = true ∧
    kingDangerGuard hordeNoKingPos hordeAttackSt .white = false ∧
    evaluate_king hordeNoKingPos hordeAttackSt .white =
      kingScoreBaseline hordeNoKingPos hordeAttackSt .white ∧
    evaluate_king hordeNoKingPos hordeAttackSt .white ≠
      kingScoreBaseline hordeNoKingPos hordeAttackSt .white +
        kingDangerDelta hordeNoKingPos hordeAttackSt .white
          (hordeNoKingPos.pe.kingSafety .white (hordeNoKingPos.kingSq .white)) := by
  refine ⟨by decide, by decide, by decide, by decide⟩

/-- C8: in evaluate_passed_pawns, the per-pawn middlegame and endgame
bonuses are both halved (truncated division by 2) exactly under the
claimed condition — the pawn is not a direct passer after one push, or a
pawn of either color stands on its forward file — and that condition
coincides with the one written in the source. -/
theorem passed_pawn_halving (pos : Position) (st : EvalState) (us : Color) (s : Nat) :
    passedPawnTerm pos st us s =
      SCORE_ZERO - HinderPassedPawn.sc
          (popcount (forwardFileBB us s &&&
            ((st.side us.other).atk .allPieces ||| pos.colorBB us.other)) : Int) +
        (S (if claimHalveCond pos us s then Int.tdiv (passedPawnPreBonus pos st us s).1 2
            else (passedPawnPreBonus pos st us s).1)
          (if claimHalveCond pos us s then Int.tdiv (passedPawnPreBonus pos st us s).2 2
            else (passedPawnPreBonus pos st us s).2) +
          PassedFile (fileOf s)) ∧
    (claimHalveCond pos us s ↔ passedHalveCond pos us s) := by
  constructor
  · simp only [passedPawnTerm]
    have hc : claimHalveCond pos us s ↔ passedHalveCond pos us s := Iff.rfl
    by_cases h : passedHalveCond pos us s
    · rw [if_pos h, if_pos h, if_pos (hc.mpr h), if_pos (hc.mpr h)]
    · rw [if_neg h, if_neg h, if_neg (fun hcl => h (hc.mp hcl)),
        if_neg (fun hcl => h (hc.mp hcl))]
  · exact Iff.rfl
